import Mathlib

/-!
Shallow embedding of the formulation CRUD server actions of the
gadogado-feed-formulator repository (formulation create / read / update /
delete / toggle-status / duplicate), together with theorems checking the
natural-language specification against them.

Conventions of the embedding:
* JavaScript numbers are modelled by exact rationals; the IEEE special
  values produced by division by zero are modelled explicitly by `JSNum`
  (`Infinity`, `-Infinity`, `NaN`).
* `uuid` identifiers are modelled by naturals; the database's
  `defaultRandom()` primary-key generation is modelled by a fresh-id
  counter `nextId` on the state.
* Timestamp columns (`createdAt` / `updatedAt`) are wall-clock values and
  are left out of the model.
* A drizzle `db.transaction` callback that throws rolls the whole
  transaction back: in the model a failing operation returns the original
  state unchanged.
* Zod validation (`validateInput` with `createFormulationSchema`, resp.
  its `.partial()`) is modelled by the boolean checks
  `validCreateInputB` / `validUpdateInputB` over the modelled fields.
-/

namespace FeedForm

/-- A JavaScript number: a finite value (modelled exactly as a rational)
or one of the IEEE special values produced e.g. by division by zero. -/
inductive JSNum where
  | num : ℚ → JSNum
  | inf : JSNum
  | negInf : JSNum
  | nan : JSNum
deriving DecidableEq, Repr

/-- JavaScript division of two finite numbers: `a / 0` is `Infinity`,
`-Infinity` or `NaN` depending on the sign of `a`. -/
def jsDivQ (a b : ℚ) : JSNum :=
  if b = 0 then
    if 0 < a then .inf else if a < 0 then .negInf else .nan
  else .num (a / b)

/-- JavaScript multiplication of a number by a finite constant. -/
def jsMulQ (x : JSNum) (c : ℚ) : JSNum :=
  match x with
  | .num a => .num (a * c)
  | .inf => if 0 < c then .inf else if c < 0 then .negInf else .nan
  | .negInf => if 0 < c then .negInf else if c < 0 then .inf else .nan
  | .nan => .nan

/-- One element of the `ingredients` array accepted by
`createFormulationSchema` (post-parse): `{ ingredientId, quantity,
percentage, ingredientRole, isEssential }`. -/
structure IngEntry where
  ingredientId : Nat
  quantity : ℚ
  percentage : ℚ
  ingredientRole : String
  isEssential : Bool
deriving DecidableEq, Repr

/-- A row of the `ingredients` table (the fields read by these actions:
`name`, `category`, `costPerUnit`, `unit`). -/
structure IngredientRow where
  id : Nat
  name : String
  category : String
  costPerUnit : ℚ
  unit : String
deriving DecidableEq, Repr

/-- A row of the `formulations` table (the fields written and read by
these actions; `mainIngredients` holds the JSON-serialised list of
`{ ingredientId, percentage }` pairs, modelled as the list itself). -/
structure FormulationRow where
  id : Nat
  name : String
  description : Option String
  status : String
  totalCost : ℚ
  ingredientCount : Nat
  mainIngredients : List (Nat × ℚ)
deriving DecidableEq, Repr

/-- A row of the `formulation_ingredients` table (the fields these
actions write). `costPercentage` is a `JSNum` because the source divides
by the caller-supplied `totalCost` without guarding against zero. -/
structure FIRow where
  formulationId : Nat
  ingredientId : Nat
  quantity : ℚ
  percentage : ℚ
  proportion : ℚ
  ingredientCost : ℚ
  costPercentage : JSNum
  ingredientRole : String
  isEssential : Bool
  sequenceOrder : Nat
  displayOrder : Nat
deriving DecidableEq, Repr

/-- A `formulation_ingredients` row as returned by `getFormulationById`:
the row left-joined with its ingredient's display fields (`none` when the
referenced ingredient row does not exist). -/
structure AnnotatedFIRow where
  row : FIRow
  ingredientName : Option String
  ingredientCategory : Option String
  ingredientCostPerUnit : Option ℚ
  ingredientUnit : Option String
deriving DecidableEq, Repr

/-- The database state touched by the formulation actions, plus the
fresh-id counter modelling `defaultRandom()` primary keys. -/
structure DBState where
  formulations : List FormulationRow
  formIngredients : List FIRow
  ingredients : List IngredientRow
  nextId : Nat
deriving DecidableEq, Repr

/-- The parsed payload of `createFormulation` (the modelled fields of
`createFormulationSchema`). -/
structure CreateInput where
  name : String
  description : Option String
  status : String
  totalCost : ℚ
  ingredients : List IngEntry
deriving DecidableEq, Repr

/-- The parsed payload of `updateFormulation`
(`createFormulationSchema.partial()`): every field optional. -/
structure UpdateInput where
  name : Option String := none
  description : Option String := none
  status : Option String := none
  totalCost : Option ℚ := none
  ingredients : Option (List IngEntry) := none
deriving DecidableEq, Repr

/-- The distinguishable failure results surfaced by the actions:
`validationFailed` (zod failure), `invalidIngredientMix` (the
`'Invalid ingredient percentages'` response of `createFormulation`,
carrying the sum as rendered by `toFixed(1)`), `notFound`,
`invalidState` (`'Cannot edit/delete active formulation'`), and
`databaseError` (the generic `'Database operation failed'` fallback of
`handleDatabaseError`, which swallows errors thrown inside a
transaction). -/
inductive OpError where
  | validationFailed
  | invalidIngredientMix : ℚ → OpError
  | notFound
  | invalidState
  | databaseError
deriving DecidableEq, Repr

instance {ε α : Type} [DecidableEq ε] [DecidableEq α] : DecidableEq (Except ε α) := fun x y =>
  match x, y with
  | .ok a, .ok b =>
      if h : a = b then .isTrue (by rw [h]) else .isFalse (by simp [h])
  | .error a, .error b =>
      if h : a = b then .isTrue (by rw [h]) else .isFalse (by simp [h])
  | .ok _, .error _ => .isFalse (by simp)
  | .error _, .ok _ => .isFalse (by simp)

/-- Model of `zod` check on one ingredient entry: `quantity` positive,
`percentage` in `[0, 100]`. -/
def validEntryB (e : IngEntry) : Bool :=
  decide (0 < e.quantity) && decide (0 ≤ e.percentage) && decide (e.percentage ≤ 100)

/-- The `status` enum of `insertFormulationSchema`. -/
def statusOkB (st : String) : Bool :=
  ["draft", "active", "archived", "template"].contains st

/-- Model of `zod` validation of a create payload over the modelled fields:
nonempty name, status in the enum, `totalCost ≥ 0`, at least one
ingredient entry, every entry valid. -/
def validCreateInputB (c : CreateInput) : Bool :=
  decide (1 ≤ c.name.length) && statusOkB c.status && decide (0 ≤ c.totalCost) &&
    decide (1 ≤ c.ingredients.length) && c.ingredients.all validEntryB

/-- Model of `zod` validation of a partial update payload: each supplied field
checked as in the create schema. -/
def validUpdateInputB (u : UpdateInput) : Bool :=
  (match u.name with | some n => decide (1 ≤ n.length) | none => true) &&
    (match u.status with | some st => statusOkB st | none => true) &&
    (match u.totalCost with | some q => decide (0 ≤ q) | none => true) &&
    (match u.ingredients with
      | some l => decide (1 ≤ l.length) && l.all validEntryB
      | none => true)

/-- Any of the modelled metadata fields supplied
(`Object.keys(formulationData).length > 0`). -/
def metadataPresent (u : UpdateInput) : Bool :=
  u.name.isSome || u.description.isSome || u.status.isSome || u.totalCost.isSome

/-- Model of `ingredientData.reduce((sum, ing) => sum + ing.percentage, 0)`. -/
def sumPct (l : List IngEntry) : ℚ :=
  l.foldl (fun acc e => acc + e.percentage) 0

/-- Model of `Math.abs`: the absolute value of a (finite) number. -/
def mathAbs (q : ℚ) : ℚ :=
  if q < 0 then -q else q

/-- Model of `Number.prototype.toFixed(1)` on a nonnegative value: round to one
decimal place (half away from zero coincides with `round` here). -/
def toFixed1 (q : ℚ) : ℚ :=
  ((round (10 * q) : ℤ) : ℚ) / 10

/-- Insertion step of the stable percentage-descending sort:
`x` is placed before the first element with percentage `≤` its own. -/
def insertPctDesc (x : IngEntry) : List IngEntry → List IngEntry
  | [] => [x]
  | y :: ys =>
      if y.percentage ≤ x.percentage then x :: y :: ys else y :: insertPctDesc x ys

/-- Model of `ingredientData.sort((a, b) => b.percentage - a.percentage)`:
ECMAScript's `Array.prototype.sort` is stable, so this is the stable sort
by percentage descending. -/
def sortPctDesc : List IngEntry → List IngEntry
  | [] => []
  | x :: xs => insertPctDesc x (sortPctDesc xs)

/-- Insertion step of the stable `displayOrder`-ascending sort. -/
def insertDispAsc (x : FIRow) : List FIRow → List FIRow
  | [] => [x]
  | y :: ys =>
      if x.displayOrder ≤ y.displayOrder then x :: y :: ys else y :: insertDispAsc x ys

/-- Model of `ORDER BY display_order ASC` over a list of rows. -/
def sortDispAsc : List FIRow → List FIRow
  | [] => []
  | x :: xs => insertDispAsc x (sortDispAsc xs)

/-- Model of `l.map((a, index) => f(index, a))` starting the index at `n`. -/
def mapIdxFrom {α β : Type} (f : Nat → α → β) : Nat → List α → List β
  | _, [] => []
  | n, a :: l => f n a :: mapIdxFrom f (n + 1) l

/-- Model of `SELECT ... FROM ingredients WHERE id = iid` (first row, if any). -/
def lookupIngredient (s : DBState) (iid : Nat) : Option IngredientRow :=
  s.ingredients.find? (fun r => decide (r.id = iid))

/-- Model of `SELECT ... FROM formulations WHERE id = fid LIMIT 1`. -/
def lookupFormulation (s : DBState) (fid : Nat) : Option FormulationRow :=
  s.formulations.find? (fun r => decide (r.id = fid))

/-- The `formulation_ingredients` rows of one formulation. -/
def fiRowsOf (s : DBState) (fid : Nat) : List FIRow :=
  s.formIngredients.filter (fun r => decide (r.formulationId = fid))

/-- Model of `ingredient?.costPerUnit || 0`: the referenced ingredient's unit
cost, or `0` when the lookup finds no row. -/
def unitCostOrZero (s : DBState) (iid : Nat) : ℚ :=
  match lookupIngredient s iid with
  | some ing => ing.costPerUnit
  | none => 0

/-- The `formulation_ingredients` row built for one entry by the
create/update row-building map: cost contribution from the live unit
cost, cost percentage from the caller-supplied denominator (JS division,
unguarded), sequence and display order from the map index. -/
def mkFIRow (s : DBState) (fid : Nat) (denom : ℚ) (idx : Nat) (e : IngEntry) : FIRow :=
  let cost := unitCostOrZero s e.ingredientId * e.quantity
  { formulationId := fid
    ingredientId := e.ingredientId
    quantity := e.quantity
    percentage := e.percentage
    proportion := e.percentage / 100
    ingredientCost := cost
    costPercentage := jsMulQ (jsDivQ cost denom) 100
    ingredientRole := e.ingredientRole
    isEssential := e.isEssential
    sequenceOrder := idx
    displayOrder := idx }

/-- Apply `g` to the formulation row with id `fid`
(`UPDATE formulations SET ... WHERE id = fid`). -/
def replaceForm (s : DBState) (fid : Nat) (g : FormulationRow → FormulationRow) : DBState :=
  { s with formulations := s.formulations.map (fun r => if r.id = fid then g r else r) }

/-- Model of `DELETE FROM formulation_ingredients WHERE formulation_id = fid`. -/
def removeFIRows (s : DBState) (fid : Nat) : DBState :=
  { s with formIngredients := s.formIngredients.filter (fun r => decide (r.formulationId ≠ fid)) }

/-- The persisted `mainIngredients` digest: stable-sort the entries by
percentage descending, take the first five, project to
`{ ingredientId, percentage }`. -/
def mainIngredientsOf (ents : List IngEntry) : List (Nat × ℚ) :=
  ((sortPctDesc ents).take 5).map (fun e => (e.ingredientId, e.percentage))

/-- The partial metadata update applied to the stored formulation row. -/
def applyMeta (u : UpdateInput) (r : FormulationRow) : FormulationRow :=
  { r with
      name := u.name.getD r.name
      description := match u.description with | some d => some d | none => r.description
      status := u.status.getD r.status
      totalCost := u.totalCost.getD r.totalCost }

/-- The formulation row inserted by `createFormulation`: fresh id,
the payload's metadata, `ingredientCount` from the entry count, and the
`mainIngredients` digest of the percentage-descending sorted entries. -/
def createdForm (s : DBState) (c : CreateInput) : FormulationRow :=
  { id := s.nextId
    name := c.name
    description := c.description
    status := c.status
    totalCost := c.totalCost
    ingredientCount := c.ingredients.length
    mainIngredients := mainIngredientsOf c.ingredients }

/-- The `formulation_ingredients` rows inserted by `createFormulation`.
`ingredientData.sort(...)` sorts the array in place, so the row-building
map iterates the percentage-descending order, not the caller-supplied
order; the denominator is the payload's `totalCost`. -/
def createdRows (s : DBState) (c : CreateInput) : List FIRow :=
  mapIdxFrom (fun i e => mkFIRow s s.nextId c.totalCost i e) 0 (sortPctDesc c.ingredients)

/-- The state after a successful `createFormulation` transaction. -/
def createdState (s : DBState) (c : CreateInput) : DBState :=
  { s with
      formulations := s.formulations ++ [createdForm s c]
      formIngredients := s.formIngredients ++ createdRows s c
      nextId := s.nextId + 1 }

/-- Model of `createFormulation(data)`: validate the payload, check the
percentage sum against 100 within `0.1`, then in one transaction insert
the formulation row (with `ingredientCount` and the `mainIngredients`
digest) and one `formulation_ingredients` row per entry. -/
def createFormulation (s : DBState) (c : CreateInput) :
    Except OpError (FormulationRow × List FIRow) × DBState :=
  if ¬ validCreateInputB c then (.error .validationFailed, s) else
  let tp := sumPct c.ingredients
  if 1/10 < mathAbs (tp - 100) then (.error (.invalidIngredientMix (toFixed1 tp)), s) else
  (.ok (createdForm s c, createdRows s c), createdState s c)

/-- The left-join annotation of one row with its ingredient's display
fields. -/
def annotateRow (s : DBState) (r : FIRow) : AnnotatedFIRow :=
  let ing := lookupIngredient s r.ingredientId
  { row := r
    ingredientName := ing.map (fun i => i.name)
    ingredientCategory := ing.map (fun i => i.category)
    ingredientCostPerUnit := ing.map (fun i => i.costPerUnit)
    ingredientUnit := ing.map (fun i => i.unit) }

/-- Model of `getFormulationById(id)`: the formulation row plus its
`formulation_ingredients` rows ordered by `displayOrder` ascending, each
left-joined with its ingredient's name / category / unit cost / unit.
Read-only: it takes the state and returns only a result. -/
def getFormulationById (s : DBState) (fid : Nat) :
    Except OpError (FormulationRow × List AnnotatedFIRow) :=
  match lookupFormulation s fid with
  | none => .error .notFound
  | some f => .ok (f, (sortDispAsc (fiRowsOf s fid)).map (annotateRow s))

/-- The partial metadata update step of `updateFormulation`
(taken only when `Object.keys(formulationData).length > 0`). -/
def metaState (s : DBState) (fid : Nat) (u : UpdateInput) : DBState :=
  if metadataPresent u then replaceForm s fid (applyMeta u) else s

/-- The replacement `formulation_ingredients` rows inserted by
`updateFormulation`: one row per supplied entry, in the supplied order,
with the cost-percentage denominator
`parseFloat(formulationData.totalCost?.toString() || '0')` — the
payload's `totalCost`, or `0` when absent. -/
def updatedRows (s : DBState) (fid : Nat) (u : UpdateInput) (ents : List IngEntry) :
    List FIRow :=
  mapIdxFrom
    (fun i e => mkFIRow (removeFIRows (metaState s fid u) fid) fid (u.totalCost.getD 0) i e)
    0 ents

/-- The state after a successful `updateFormulation` transaction that
replaced the ingredient set: partial metadata update, wholesale
delete-then-insert of the ingredient rows, then recomputation of
`ingredientCount` and the `mainIngredients` digest on the formulation
row. -/
def updatedState (s : DBState) (fid : Nat) (u : UpdateInput) (ents : List IngEntry) : DBState :=
  let s₂ := removeFIRows (metaState s fid u) fid
  replaceForm { s₂ with formIngredients := s₂.formIngredients ++ updatedRows s fid u ents } fid
    (fun r => { r with ingredientCount := ents.length, mainIngredients := mainIngredientsOf ents })

/-- Model of `updateFormulation(id, data)`: validate, require the formulation to
exist and not be `active`, then in one transaction apply the partial
metadata update and, when ingredient entries are supplied, re-check the
percentage sum (a failure is thrown, rolling the transaction back, and is
mapped by `handleDatabaseError` to the generic database failure), replace
the ingredient rows wholesale, and recompute `ingredientCount` and
`mainIngredients`. The cost-percentage denominator is
`parseFloat(formulationData.totalCost?.toString() || '0')`: the payload's
`totalCost`, or `0` when absent. -/
def updateFormulation (s : DBState) (fid : Nat) (u : UpdateInput) :
    Except OpError Unit × DBState :=
  if ¬ validUpdateInputB u then (.error .validationFailed, s) else
  match lookupFormulation s fid with
  | none => (.error .notFound, s)
  | some f =>
    if f.status = "active" then (.error .invalidState, s) else
    let s₁ := metaState s fid u
    match u.ingredients with
    | none => (.ok (), s₁)
    | some ents =>
      if 1/10 < mathAbs (sumPct ents - 100) then (.error .databaseError, s) else
      (.ok (), updatedState s fid u ents)

/-- Model of `deleteFormulation(id)`: require existence and `status ≠ active`,
then delete the formulation row; the ingredient rows go with it by the
`onDelete: cascade` foreign key. -/
def deleteFormulation (s : DBState) (fid : Nat) : Except OpError Unit × DBState :=
  match lookupFormulation s fid with
  | none => (.error .notFound, s)
  | some f =>
    if f.status = "active" then (.error .invalidState, s) else
    (.ok (),
      { s with
          formulations := s.formulations.filter (fun r => decide (r.id ≠ fid))
          formIngredients := s.formIngredients.filter (fun r => decide (r.formulationId ≠ fid)) })

/-- Model of `toggleFormulationStatus(id, activate)`: set `status` to `active` or
`draft`; `NotFound` when no row was updated. -/
def toggleFormulationStatus (s : DBState) (fid : Nat) (activate : Bool) :
    Except OpError Unit × DBState :=
  match lookupFormulation s fid with
  | none => (.error .notFound, s)
  | some _ =>
    (.ok (), replaceForm s fid (fun r =>
      { r with status := if activate then "active" else "draft" }))

/-- The create payload that `duplicateFormulation` builds from the
source formulation read by the Reader: the new name, a `Copy of ...`
description, `status` forced to `'draft'`, the source's metadata, and one
entry per source ingredient row copying
`{ ingredientId, quantity, percentage, ingredientRole, isEssential }`. -/
def dupInput (orig : FormulationRow) (anns : List AnnotatedFIRow) (newName : String) :
    CreateInput :=
  { name := newName
    description := some (match orig.description with
      | some d => "Copy of: " ++ d
      | none => "Copy of " ++ orig.name)
    status := "draft"
    totalCost := orig.totalCost
    ingredients := anns.map (fun a =>
      { ingredientId := a.row.ingredientId
        quantity := a.row.quantity
        percentage := a.row.percentage
        ingredientRole := a.row.ingredientRole
        isEssential := a.row.isEssential }) }

/-- Model of `duplicateFormulation(id, newName)`: read the source via
`getFormulationById`, then call `createFormulation` on the copied
payload (`NotFound` when the source does not exist). -/
def duplicateFormulation (s : DBState) (fid : Nat) (newName : String) :
    Except OpError (FormulationRow × List FIRow) × DBState :=
  match getFormulationById s fid with
  | .error _ => (.error .notFound, s)
  | .ok (orig, anns) => createFormulation s (dupInput orig anns newName)

/-- Well-formedness of the fresh-id counter: every stored formulation id
is below `nextId` (holds for every state reachable through the
actions). -/
def IdsBelowNext (s : DBState) : Prop :=
  ∀ f ∈ s.formulations, f.id < s.nextId

/-- The fields of a `formulation_ingredients` row that Duplicate copies:
`(ingredientId, quantity, percentage, ingredientRole, isEssential)`. -/
def fiProj (r : FIRow) : Nat × ℚ × ℚ × String × Bool :=
  (r.ingredientId, r.quantity, r.percentage, r.ingredientRole, r.isEssential)

/-- The same five fields of a payload ingredient entry. -/
def entProj (e : IngEntry) : Nat × ℚ × ℚ × String × Bool :=
  (e.ingredientId, e.quantity, e.percentage, e.ingredientRole, e.isEssential)

/-- Whether an action result is a success (`result.success` in the
`ActionResult` shape). -/
def resultOk {α : Type} : Except OpError α → Bool
  | .ok _ => true
  | .error _ => false

instance (s : DBState) : Decidable (IdsBelowNext s) := by
  unfold IdsBelowNext
  infer_instance

/-! ### Concrete fixtures for witnesses and counterexamples -/

/-- A stored ingredient: corn at unit cost 5. -/
def exIngCorn : IngredientRow :=
  { id := 1, name := "Corn", category := "Energy Source", costPerUnit := 5, unit := "kg" }

/-- A stored ingredient: soybean meal at unit cost 3. -/
def exIngSoy : IngredientRow :=
  { id := 2, name := "Soybean Meal", category := "Protein Source", costPerUnit := 3, unit := "kg" }

/-- A single 100% corn entry. -/
def exEntryFull : IngEntry :=
  { ingredientId := 1, quantity := 2, percentage := 100, ingredientRole := "Primary",
    isEssential := true }

/-- A 50% corn entry (used for out-of-tolerance mixes). -/
def exEntry50 : IngEntry :=
  { ingredientId := 1, quantity := 1, percentage := 50, ingredientRole := "Primary",
    isEssential := false }

/-- A 49% soy entry (used for out-of-tolerance mixes). -/
def exEntry49 : IngEntry :=
  { ingredientId := 2, quantity := 1, percentage := 49, ingredientRole := "Secondary",
    isEssential := false }

/-- A 40% corn entry supplied first in the two-entry mix. -/
def exEntryA : IngEntry :=
  { ingredientId := 1, quantity := 40, percentage := 40, ingredientRole := "Primary",
    isEssential := false }

/-- A 60% soy entry supplied second in the two-entry mix. -/
def exEntryB : IngEntry :=
  { ingredientId := 2, quantity := 60, percentage := 60, ingredientRole := "Secondary",
    isEssential := false }

/-- The stored ingredient row of the base formulation. -/
def exFIRow : FIRow :=
  { formulationId := 0, ingredientId := 1, quantity := 2, percentage := 100, proportion := 1,
    ingredientCost := 10, costPercentage := .num 100, ingredientRole := "Primary",
    isEssential := true, sequenceOrder := 0, displayOrder := 0 }

/-- A stored draft formulation with one 100% corn row. -/
def exFormDraft : FormulationRow :=
  { id := 0, name := "Base", description := none, status := "draft", totalCost := 10,
    ingredientCount := 1, mainIngredients := [(1, 100)] }

/-- A database state with one draft formulation, its single ingredient
row, and two ingredients. -/
def exState : DBState :=
  { formulations := [exFormDraft], formIngredients := [exFIRow],
    ingredients := [exIngCorn, exIngSoy], nextId := 1 }

/-- The base formulation in `active` status. -/
def exFormActive : FormulationRow := { exFormDraft with status := "active" }

/-- The base state with its formulation `active`. -/
def exStateActive : DBState := { exState with formulations := [exFormActive] }

/-- A create payload whose percentages sum to 99 (out of tolerance). -/
def exCreateBad : CreateInput :=
  { name := "Bad", description := none, status := "draft", totalCost := 10,
    ingredients := [exEntry50, exEntry49] }

/-- A valid create payload: one 100% entry, `totalCost` 10. -/
def exCreateGood : CreateInput :=
  { name := "Good", description := none, status := "draft", totalCost := 10,
    ingredients := [exEntryFull] }

/-- A valid create payload with `totalCost` 0. -/
def exCreateZero : CreateInput :=
  { name := "Zero", description := none, status := "draft", totalCost := 0,
    ingredients := [exEntryFull] }

/-- A valid create payload with the 40%-then-60% two-entry mix. -/
def exCreateMix : CreateInput :=
  { name := "Mix", description := none, status := "draft", totalCost := 10,
    ingredients := [exEntryA, exEntryB] }

/-- An update payload whose single entry sums to 50 (out of tolerance). -/
def exUpdateBad : UpdateInput := { ingredients := some [exEntry50] }

/-- A valid update payload replacing the ingredient set with one 100%
entry and supplying no metadata (in particular no `totalCost`). -/
def exUpdateGood : UpdateInput := { ingredients := some [exEntryFull] }

/-- A valid update payload with the 40%-then-60% two-entry mix. -/
def exUpdateMix : UpdateInput := { ingredients := some [exEntryA, exEntryB] }

/-! ### Helper lemmas about the stable sorts -/

/-- The model of `Math.abs` agrees with the mathematical absolute value. -/
lemma mathAbs_eq_abs (q : ℚ) : mathAbs q = |q| := by
  unfold mathAbs
  by_cases h : q < 0
  · rw [if_pos h, abs_of_neg h]
  · rw [if_neg h, abs_of_nonneg (le_of_not_lt h)]


lemma insertPctDesc_perm (x : IngEntry) (l : List IngEntry) :
    List.Perm (insertPctDesc x l) (x :: l) := by
  induction l with
  | nil => simp [insertPctDesc]
  | cons y ys ih =>
    by_cases h : y.percentage ≤ x.percentage
    · simp [insertPctDesc, h]
    · simpa only [insertPctDesc, if_neg h] using (ih.cons y).trans (List.Perm.swap x y ys)

lemma sortPctDesc_perm (l : List IngEntry) : List.Perm (sortPctDesc l) l := by
  induction l with
  | nil => simp [sortPctDesc]
  | cons x xs ih =>
    exact (insertPctDesc_perm x (sortPctDesc xs)).trans (ih.cons x)

lemma mem_insertPctDesc {a x : IngEntry} {l : List IngEntry} :
    a ∈ insertPctDesc x l ↔ a = x ∨ a ∈ l := by
  rw [(insertPctDesc_perm x l).mem_iff, List.mem_cons]

lemma insertPctDesc_pairwise (x : IngEntry) {l : List IngEntry}
    (h : l.Pairwise (fun a b => b.percentage ≤ a.percentage)) :
    (insertPctDesc x l).Pairwise (fun a b => b.percentage ≤ a.percentage) := by
  induction l with
  | nil => simp [insertPctDesc]
  | cons y ys ih =>
    rcases List.pairwise_cons.mp h with ⟨hy, hys⟩
    by_cases hxy : y.percentage ≤ x.percentage
    · rw [insertPctDesc, if_pos hxy]
      refine List.pairwise_cons.mpr ⟨?_, h⟩
      intro z hz
      rcases List.mem_cons.mp hz with rfl | hz
      · exact hxy
      · exact le_trans (hy z hz) hxy
    · rw [insertPctDesc, if_neg hxy]
      refine List.pairwise_cons.mpr ⟨?_, ih hys⟩
      intro z hz
      rcases mem_insertPctDesc.mp hz with rfl | hz
      · exact le_of_not_le hxy
      · exact hy z hz

lemma sortPctDesc_pairwise (l : List IngEntry) :
    (sortPctDesc l).Pairwise (fun a b => b.percentage ≤ a.percentage) := by
  induction l with
  | nil => simp [sortPctDesc]
  | cons x xs ih => exact insertPctDesc_pairwise x ih

lemma filter_insertPctDesc (x : IngEntry) (l : List IngEntry) (p : ℚ) :
    (insertPctDesc x l).filter (fun e => decide (e.percentage = p)) =
      (x :: l).filter (fun e => decide (e.percentage = p)) := by
  induction l with
  | nil => rfl
  | cons y ys ih =>
    by_cases hxy : y.percentage ≤ x.percentage
    · rw [insertPctDesc, if_pos hxy]
    · rw [insertPctDesc, if_neg hxy]
      by_cases hx : x.percentage = p
      · have hy : ¬ y.percentage = p := fun h => hxy (le_of_eq (h.trans hx.symm))
        simp [List.filter_cons, hx, hy, ih]
      · by_cases hy : y.percentage = p <;> simp [List.filter_cons, hx, hy, ih]

lemma sortPctDesc_filter (l : List IngEntry) (p : ℚ) :
    (sortPctDesc l).filter (fun e => decide (e.percentage = p)) =
      l.filter (fun e => decide (e.percentage = p)) := by
  induction l with
  | nil => rfl
  | cons x xs ih =>
    rw [sortPctDesc, filter_insertPctDesc, List.filter_cons, List.filter_cons, ih]

lemma insertDispAsc_perm (x : FIRow) (l : List FIRow) :
    List.Perm (insertDispAsc x l) (x :: l) := by
  induction l with
  | nil => simp [insertDispAsc]
  | cons y ys ih =>
    by_cases h : x.displayOrder ≤ y.displayOrder
    · simp [insertDispAsc, h]
    · simpa only [insertDispAsc, if_neg h] using (ih.cons y).trans (List.Perm.swap x y ys)

lemma sortDispAsc_perm (l : List FIRow) : List.Perm (sortDispAsc l) l := by
  induction l with
  | nil => simp [sortDispAsc]
  | cons x xs ih =>
    exact (insertDispAsc_perm x (sortDispAsc xs)).trans (ih.cons x)

lemma mem_insertDispAsc {a x : FIRow} {l : List FIRow} :
    a ∈ insertDispAsc x l ↔ a = x ∨ a ∈ l := by
  rw [(insertDispAsc_perm x l).mem_iff, List.mem_cons]

lemma insertDispAsc_pairwise (x : FIRow) {l : List FIRow}
    (h : l.Pairwise (fun a b => a.displayOrder ≤ b.displayOrder)) :
    (insertDispAsc x l).Pairwise (fun a b => a.displayOrder ≤ b.displayOrder) := by
  induction l with
  | nil => simp [insertDispAsc]
  | cons y ys ih =>
    rcases List.pairwise_cons.mp h with ⟨hy, hys⟩
    by_cases hxy : x.displayOrder ≤ y.displayOrder
    · rw [insertDispAsc, if_pos hxy]
      refine List.pairwise_cons.mpr ⟨?_, h⟩
      intro z hz
      rcases List.mem_cons.mp hz with rfl | hz
      · exact hxy
      · exact le_trans hxy (hy z hz)
    · rw [insertDispAsc, if_neg hxy]
      refine List.pairwise_cons.mpr ⟨?_, ih hys⟩
      intro z hz
      rcases mem_insertDispAsc.mp hz with rfl | hz
      · exact le_of_not_le hxy
      · exact hy z hz

lemma sortDispAsc_pairwise (l : List FIRow) :
    (sortDispAsc l).Pairwise (fun a b => a.displayOrder ≤ b.displayOrder) := by
  induction l with
  | nil => simp [sortDispAsc]
  | cons x xs ih => exact insertDispAsc_pairwise x ih

/-! ### Helper lemmas about the indexed map -/

lemma mem_mapIdxFrom {α β : Type} (f : Nat → α → β) :
    ∀ (n : Nat) (l : List α) (b : β), b ∈ mapIdxFrom f n l → ∃ i a, a ∈ l ∧ b = f i a := by
  intro n l
  induction l generalizing n with
  | nil => intro b hb; simp [mapIdxFrom] at hb
  | cons a l ih =>
    intro b hb
    rcases List.mem_cons.mp hb with rfl | hb
    · exact ⟨n, a, List.mem_cons_self a l, rfl⟩
    · rcases ih (n + 1) b hb with ⟨i, a', ha', rfl⟩
      exact ⟨i, a', List.mem_cons_of_mem a ha', rfl⟩

lemma map_mapIdxFrom {α β γ : Type} (f : Nat → α → β) (g : β → γ) (h : α → γ)
    (hfg : ∀ i a, g (f i a) = h a) :
    ∀ (n : Nat) (l : List α), (mapIdxFrom f n l).map g = l.map h := by
  intro n l
  induction l generalizing n with
  | nil => rfl
  | cons a l ih => simp [mapIdxFrom, hfg, ih]

/-! ### Helper lemmas about the state operations -/

lemma replaceForm_ingredients (s : DBState) (fid : Nat) (g : FormulationRow → FormulationRow) :
    (replaceForm s fid g).ingredients = s.ingredients := rfl

lemma replaceForm_formIngredients (s : DBState) (fid : Nat) (g : FormulationRow → FormulationRow) :
    (replaceForm s fid g).formIngredients = s.formIngredients := rfl

lemma removeFIRows_ingredients (s : DBState) (fid : Nat) :
    (removeFIRows s fid).ingredients = s.ingredients := rfl

lemma metaState_ingredients (s : DBState) (fid : Nat) (u : UpdateInput) :
    (metaState s fid u).ingredients = s.ingredients := by
  unfold metaState; split <;> rfl

lemma metaState_formIngredients (s : DBState) (fid : Nat) (u : UpdateInput) :
    (metaState s fid u).formIngredients = s.formIngredients := by
  unfold metaState; split <;> rfl

lemma mkFIRow_congr {s t : DBState} (h : s.ingredients = t.ingredients)
    (fid : Nat) (d : ℚ) (i : Nat) (e : IngEntry) :
    mkFIRow s fid d i e = mkFIRow t fid d i e := by
  unfold mkFIRow unitCostOrZero lookupIngredient
  rw [h]

lemma mkFIRow_formulationId (s : DBState) (fid : Nat) (d : ℚ) (i : Nat) (e : IngEntry) :
    (mkFIRow s fid d i e).formulationId = fid := rfl

lemma lookupFormulation_id {s : DBState} {fid : Nat} {f : FormulationRow}
    (h : lookupFormulation s fid = some f) : f.id = fid := by
  have := List.find?_some h
  simpa using this

lemma lookupFormulation_mem {s : DBState} {fid : Nat} {f : FormulationRow}
    (h : lookupFormulation s fid = some f) : f ∈ s.formulations :=
  List.mem_of_find?_eq_some h

lemma lookupFormulation_lt_nextId {s : DBState} {fid : Nat} {f : FormulationRow}
    (hwf : IdsBelowNext s) (h : lookupFormulation s fid = some f) : fid < s.nextId := by
  have := hwf f (lookupFormulation_mem h)
  rwa [lookupFormulation_id h] at this

lemma lookupFormulation_replaceForm (s : DBState) (fid fid' : Nat)
    (g : FormulationRow → FormulationRow) (hg : ∀ r, (g r).id = r.id) :
    lookupFormulation (replaceForm s fid g) fid' =
      (lookupFormulation s fid').map (fun r => if r.id = fid then g r else r) := by
  unfold lookupFormulation replaceForm
  induction s.formulations with
  | nil => rfl
  | cons r l ih =>
    by_cases h : r.id = fid'
    · simp only [List.map_cons, List.find?_cons]
      by_cases h₂ : r.id = fid <;> simp_all [List.find?_cons, hg]
    · simp only [List.map_cons, List.find?_cons]
      by_cases h₂ : r.id = fid <;> simp_all [List.find?_cons, hg]

lemma find?_append_of_some {α : Type} (p : α → Bool) {l₁ : List α} {a : α} (l₂ : List α)
    (h : l₁.find? p = some a) : (l₁ ++ l₂).find? p = some a := by
  induction l₁ with
  | nil => simp at h
  | cons x l ih =>
    cases hpx : p x with
    | true =>
      rw [List.find?_cons_of_pos _ hpx] at h
      rw [List.cons_append, List.find?_cons_of_pos _ hpx]
      exact h
    | false =>
      rw [List.find?_cons_of_neg _ (by simp [hpx])] at h
      rw [List.cons_append, List.find?_cons_of_neg _ (by simp [hpx])]
      exact ih h

lemma lookupFormulation_createdState {s : DBState} {fid : Nat} {f : FormulationRow}
    (c : CreateInput) (h : lookupFormulation s fid = some f) :
    lookupFormulation (createdState s c) fid = some f :=
  find?_append_of_some _ _ h

lemma fiRowsOf_replaceForm (s : DBState) (fid fid' : Nat) (g : FormulationRow → FormulationRow) :
    fiRowsOf (replaceForm s fid g) fid' = fiRowsOf s fid' := rfl

lemma filter_remove_self (l : List FIRow) (fid : Nat) :
    (l.filter (fun r => decide (r.formulationId ≠ fid))).filter
      (fun r => decide (r.formulationId = fid)) = [] := by
  induction l with
  | nil => rfl
  | cons r l ih => by_cases h : r.formulationId = fid <;> simp [List.filter_cons, h, ih]

lemma updatedRows_formulationId (s : DBState) (fid : Nat) (u : UpdateInput)
    (ents : List IngEntry) :
    ∀ r ∈ updatedRows s fid u ents, r.formulationId = fid := by
  intro r hr
  rcases mem_mapIdxFrom _ _ _ _ hr with ⟨i, e, _, rfl⟩
  rfl

lemma createdRows_formulationId (s : DBState) (c : CreateInput) :
    ∀ r ∈ createdRows s c, r.formulationId = s.nextId := by
  intro r hr
  rcases mem_mapIdxFrom _ _ _ _ hr with ⟨i, e, _, rfl⟩
  rfl

lemma fiRowsOf_updatedState (s : DBState) (fid : Nat) (u : UpdateInput) (ents : List IngEntry) :
    fiRowsOf (updatedState s fid u ents) fid = updatedRows s fid u ents := by
  unfold updatedState
  rw [fiRowsOf_replaceForm]
  unfold fiRowsOf removeFIRows
  simp only [List.filter_append, metaState_formIngredients]
  rw [filter_remove_self]
  rw [List.nil_append, List.filter_eq_self.mpr]
  intro r hr
  simpa using updatedRows_formulationId s fid u ents r hr

lemma fiRowsOf_createdState {s : DBState} {fid : Nat} (c : CreateInput)
    (hne : fid ≠ s.nextId) : fiRowsOf (createdState s c) fid = fiRowsOf s fid := by
  unfold fiRowsOf createdState
  simp only [List.filter_append]
  have hnil : (createdRows s c).filter (fun r => decide (r.formulationId = fid)) = [] := by
    rw [List.filter_eq_nil_iff]
    intro r hr
    rw [createdRows_formulationId s c r hr]
    simpa using Ne.symm hne
  rw [hnil, List.append_nil]

/-! ### Branch characterizations of the operations -/

lemma createFormulation_invalid {c : CreateInput} (s : DBState)
    (h : validCreateInputB c = false) :
    createFormulation s c = (.error .validationFailed, s) := by
  simp [createFormulation, h]

lemma createFormulation_mix {c : CreateInput} (s : DBState)
    (h₁ : validCreateInputB c = true) (h₂ : 1/10 < mathAbs (sumPct c.ingredients - 100)) :
    createFormulation s c =
      (.error (.invalidIngredientMix (toFixed1 (sumPct c.ingredients))), s) := by
  have h₂' : (10 : ℚ)⁻¹ < mathAbs (sumPct c.ingredients - 100) := by linarith
  simp [createFormulation, h₁, h₂']

lemma createFormulation_ok {c : CreateInput} (s : DBState)
    (h₁ : validCreateInputB c = true) (h₂ : ¬ 1/10 < mathAbs (sumPct c.ingredients - 100)) :
    createFormulation s c = (.ok (createdForm s c, createdRows s c), createdState s c) := by
  have h₂' : ¬ (10 : ℚ)⁻¹ < mathAbs (sumPct c.ingredients - 100) := fun hc => h₂ (by linarith)
  simp [createFormulation, h₁, h₂']

lemma createFormulation_ok_inv {s : DBState} {c : CreateInput}
    {pr : FormulationRow × List FIRow} (h : (createFormulation s c).1 = .ok pr) :
    validCreateInputB c = true ∧ mathAbs (sumPct c.ingredients - 100) ≤ 1/10 ∧
      pr = (createdForm s c, createdRows s c) ∧
      (createFormulation s c).2 = createdState s c := by
  cases h₁ : validCreateInputB c with
  | false => rw [createFormulation_invalid s h₁] at h; simp at h
  | true =>
    by_cases h₂ : 1/10 < mathAbs (sumPct c.ingredients - 100)
    · rw [createFormulation_mix s h₁ h₂] at h; simp at h
    · rw [createFormulation_ok s h₁ h₂] at h ⊢
      exact ⟨rfl, le_of_not_lt h₂, by simpa using h.symm, rfl⟩

lemma createFormulation_error_state {s : DBState} {c : CreateInput} {e : OpError}
    (h : (createFormulation s c).1 = .error e) : (createFormulation s c).2 = s := by
  cases h₁ : validCreateInputB c with
  | false => rw [createFormulation_invalid s h₁]
  | true =>
    by_cases h₂ : 1/10 < mathAbs (sumPct c.ingredients - 100)
    · rw [createFormulation_mix s h₁ h₂]
    · rw [createFormulation_ok s h₁ h₂] at h; simp at h

lemma createFormulation_state_cases (s : DBState) (c : CreateInput) :
    (createFormulation s c).2 = s ∨ (createFormulation s c).2 = createdState s c := by
  cases h₁ : validCreateInputB c with
  | false => left; rw [createFormulation_invalid s h₁]
  | true =>
    by_cases h₂ : 1/10 < mathAbs (sumPct c.ingredients - 100)
    · left; rw [createFormulation_mix s h₁ h₂]
    · right; rw [createFormulation_ok s h₁ h₂]

lemma updateFormulation_invalid {u : UpdateInput} (s : DBState) (fid : Nat)
    (h : validUpdateInputB u = false) :
    updateFormulation s fid u = (.error .validationFailed, s) := by
  simp [updateFormulation, h]

lemma updateFormulation_notFound {s : DBState} {fid : Nat} {u : UpdateInput}
    (h₁ : validUpdateInputB u = true) (h₂ : lookupFormulation s fid = none) :
    updateFormulation s fid u = (.error .notFound, s) := by
  simp [updateFormulation, h₁, h₂]

lemma updateFormulation_active {s : DBState} {fid : Nat} {u : UpdateInput} {f : FormulationRow}
    (h₁ : validUpdateInputB u = true) (h₂ : lookupFormulation s fid = some f)
    (h₃ : f.status = "active") :
    updateFormulation s fid u = (.error .invalidState, s) := by
  simp [updateFormulation, h₁, h₂, h₃]

lemma updateFormulation_mixFail {s : DBState} {fid : Nat} {u : UpdateInput} {f : FormulationRow}
    {ents : List IngEntry}
    (h₁ : validUpdateInputB u = true) (h₂ : lookupFormulation s fid = some f)
    (h₃ : ¬ f.status = "active") (h₄ : u.ingredients = some ents)
    (h₅ : 1/10 < mathAbs (sumPct ents - 100)) :
    updateFormulation s fid u = (.error .databaseError, s) := by
  have h₅' : (10 : ℚ)⁻¹ < mathAbs (sumPct ents - 100) := by linarith
  simp [updateFormulation, h₁, h₂, h₃, h₄, h₅']

lemma updateFormulation_ok_meta {s : DBState} {fid : Nat} {u : UpdateInput} {f : FormulationRow}
    (h₁ : validUpdateInputB u = true) (h₂ : lookupFormulation s fid = some f)
    (h₃ : ¬ f.status = "active") (h₄ : u.ingredients = none) :
    updateFormulation s fid u = (.ok (), metaState s fid u) := by
  simp [updateFormulation, h₁, h₂, h₃, h₄]

lemma updateFormulation_ok_ents {s : DBState} {fid : Nat} {u : UpdateInput} {f : FormulationRow}
    {ents : List IngEntry}
    (h₁ : validUpdateInputB u = true) (h₂ : lookupFormulation s fid = some f)
    (h₃ : ¬ f.status = "active") (h₄ : u.ingredients = some ents)
    (h₅ : ¬ 1/10 < mathAbs (sumPct ents - 100)) :
    updateFormulation s fid u = (.ok (), updatedState s fid u ents) := by
  have h₅' : ¬ (10 : ℚ)⁻¹ < mathAbs (sumPct ents - 100) := fun hc => h₅ (by linarith)
  simp [updateFormulation, h₁, h₂, h₃, h₄, h₅']

lemma updateFormulation_error_state {s : DBState} {fid : Nat} {u : UpdateInput} {e : OpError}
    (h : (updateFormulation s fid u).1 = .error e) : (updateFormulation s fid u).2 = s := by
  cases h₁ : validUpdateInputB u with
  | false => rw [updateFormulation_invalid s fid h₁]
  | true =>
    cases h₂ : lookupFormulation s fid with
    | none => rw [updateFormulation_notFound h₁ h₂]
    | some f =>
      by_cases h₃ : f.status = "active"
      · rw [updateFormulation_active h₁ h₂ h₃]
      · cases h₄ : u.ingredients with
        | none => rw [updateFormulation_ok_meta h₁ h₂ h₃ h₄] at h; simp at h
        | some ents =>
          by_cases h₅ : 1/10 < mathAbs (sumPct ents - 100)
          · rw [updateFormulation_mixFail h₁ h₂ h₃ h₄ h₅]
          · rw [updateFormulation_ok_ents h₁ h₂ h₃ h₄ h₅] at h; simp at h

lemma updateFormulation_ok_ents_inv {s : DBState} {fid : Nat} {u : UpdateInput}
    {ents : List IngEntry} {r : Unit}
    (hi : u.ingredients = some ents) (h : (updateFormulation s fid u).1 = .ok r) :
    validUpdateInputB u = true ∧
      (∃ f, lookupFormulation s fid = some f ∧ ¬ f.status = "active") ∧
      mathAbs (sumPct ents - 100) ≤ 1/10 ∧
      (updateFormulation s fid u).2 = updatedState s fid u ents := by
  cases h₁ : validUpdateInputB u with
  | false => rw [updateFormulation_invalid s fid h₁] at h; simp at h
  | true =>
    cases h₂ : lookupFormulation s fid with
    | none => rw [updateFormulation_notFound h₁ h₂] at h; simp at h
    | some f =>
      by_cases h₃ : f.status = "active"
      · rw [updateFormulation_active h₁ h₂ h₃] at h; simp at h
      · by_cases h₅ : 1/10 < mathAbs (sumPct ents - 100)
        · rw [updateFormulation_mixFail h₁ h₂ h₃ hi h₅] at h; simp at h
        · rw [updateFormulation_ok_ents h₁ h₂ h₃ hi h₅]
          exact ⟨rfl, ⟨f, rfl, h₃⟩, le_of_not_lt h₅, rfl⟩

/-- In a well-formed state the fresh id is not yet a formulation id. -/
lemma lookupFormulation_nextId_none {s : DBState} (hwf : IdsBelowNext s) :
    lookupFormulation s s.nextId = none := by
  unfold lookupFormulation
  rw [List.find?_eq_none]
  intro r hr
  simp only [decide_eq_true_eq]
  exact fun h => absurd (hwf r hr) (by rw [h]; exact lt_irrefl _)

lemma deleteFormulation_active {s : DBState} {fid : Nat} {f : FormulationRow}
    (h₂ : lookupFormulation s fid = some f) (h₃ : f.status = "active") :
    deleteFormulation s fid = (.error .invalidState, s) := by
  simp [deleteFormulation, h₂, h₃]

lemma toggleFormulationStatus_some {s : DBState} {fid : Nat} {f : FormulationRow}
    (h : lookupFormulation s fid = some f) (b : Bool) :
    toggleFormulationStatus s fid b =
      (.ok (), replaceForm s fid (fun r =>
        { r with status := if b then "active" else "draft" })) := by
  simp [toggleFormulationStatus, h]

lemma FormulationRow_setStatus_self (f : FormulationRow) (st : String) (h : f.status = st) :
    ({ f with status := st } : FormulationRow) = f := by
  subst h
  rfl

lemma duplicateFormulation_state_cases (s : DBState) (fid : Nat) (nm : String) :
    (duplicateFormulation s fid nm).2 = s ∨
      ∃ c, (duplicateFormulation s fid nm).2 = createdState s c := by
  unfold duplicateFormulation
  cases h : getFormulationById s fid with
  | error e => left; rfl
  | ok pr =>
    obtain ⟨orig, anns⟩ := pr
    exact (createFormulation_state_cases s _).imp id (fun hh => ⟨_, hh⟩)

lemma lookupFormulation_setFI (s : DBState) (l : List FIRow) (fid : Nat) :
    lookupFormulation { s with formIngredients := l } fid = lookupFormulation s fid := rfl

lemma lookupFormulation_removeFIRows (s : DBState) (fid fid' : Nat) :
    lookupFormulation (removeFIRows s fid) fid' = lookupFormulation s fid' := rfl

lemma lookupFormulation_metaState {s : DBState} {fid : Nat} {f : FormulationRow}
    (u : UpdateInput) (hf : lookupFormulation s fid = some f) :
    ∃ f', lookupFormulation (metaState s fid u) fid = some f' := by
  unfold metaState
  split
  · rw [lookupFormulation_replaceForm s fid fid (applyMeta u) (fun r => rfl), hf]
    exact ⟨_, rfl⟩
  · exact ⟨f, hf⟩

lemma lookupFormulation_updatedState {s : DBState} {fid : Nat} {f : FormulationRow}
    (u : UpdateInput) (ents : List IngEntry) (hf : lookupFormulation s fid = some f) :
    ∃ f', lookupFormulation (updatedState s fid u ents) fid = some f' ∧
      f'.mainIngredients = mainIngredientsOf ents ∧
      f'.ingredientCount = ents.length := by
  obtain ⟨f₁, hf₁⟩ := lookupFormulation_metaState u hf
  have hmid : f₁.id = fid := lookupFormulation_id hf₁
  simp only [updatedState]
  rw [lookupFormulation_replaceForm _ fid fid
    (fun r => { r with ingredientCount := ents.length, mainIngredients := mainIngredientsOf ents })
    (fun r => rfl)]
  rw [lookupFormulation_setFI, lookupFormulation_removeFIRows, hf₁]
  simp only [Option.map_some', if_pos hmid]
  exact ⟨_, rfl, rfl, rfl⟩

lemma mkFIRow_ingredientId (s : DBState) (fid : Nat) (d : ℚ) (i : Nat) (e : IngEntry) :
    (mkFIRow s fid d i e).ingredientId = e.ingredientId := rfl

lemma mkFIRow_quantity (s : DBState) (fid : Nat) (d : ℚ) (i : Nat) (e : IngEntry) :
    (mkFIRow s fid d i e).quantity = e.quantity := rfl

lemma unitCostOrZero_congr {s t : DBState} (h : s.ingredients = t.ingredients) (iid : Nat) :
    unitCostOrZero s iid = unitCostOrZero t iid := by
  unfold unitCostOrZero lookupIngredient
  rw [h]

lemma lookupFormulation_setIng (s : DBState) (tbl : List IngredientRow) (fid : Nat) :
    lookupFormulation { s with ingredients := tbl } fid = lookupFormulation s fid := rfl

/-- Whether `createFormulation` succeeds depends only on the payload,
never on the state (in particular not on the ingredients table). -/
lemma createFormulation_resultOk (s t : DBState) (c : CreateInput) :
    resultOk (createFormulation s c).1 = resultOk (createFormulation t c).1 := by
  cases h₁ : validCreateInputB c with
  | false => rw [createFormulation_invalid s h₁, createFormulation_invalid t h₁]
  | true =>
    by_cases h₂ : 1/10 < mathAbs (sumPct c.ingredients - 100)
    · rw [createFormulation_mix s h₁ h₂, createFormulation_mix t h₁ h₂]
    · rw [createFormulation_ok s h₁ h₂, createFormulation_ok t h₁ h₂]
      rfl

/-- Whether `updateFormulation` succeeds does not depend on the
ingredients table. -/
lemma updateFormulation_resultOk_ingTable (s : DBState) (tbl tbl' : List IngredientRow)
    (fid : Nat) (u : UpdateInput) :
    resultOk (updateFormulation { s with ingredients := tbl } fid u).1 =
      resultOk (updateFormulation { s with ingredients := tbl' } fid u).1 := by
  cases h₁ : validUpdateInputB u with
  | false =>
    rw [updateFormulation_invalid _ fid h₁, updateFormulation_invalid _ fid h₁]
  | true =>
    cases h₂ : lookupFormulation s fid with
    | none =>
      rw [updateFormulation_notFound h₁ ((lookupFormulation_setIng s tbl fid).trans h₂),
          updateFormulation_notFound h₁ ((lookupFormulation_setIng s tbl' fid).trans h₂)]
    | some f =>
      have hl : lookupFormulation { s with ingredients := tbl } fid = some f :=
        (lookupFormulation_setIng s tbl fid).trans h₂
      have hl' : lookupFormulation { s with ingredients := tbl' } fid = some f :=
        (lookupFormulation_setIng s tbl' fid).trans h₂
      by_cases h₃ : f.status = "active"
      · rw [updateFormulation_active h₁ hl h₃, updateFormulation_active h₁ hl' h₃]
      · cases h₄ : u.ingredients with
        | none =>
          rw [updateFormulation_ok_meta h₁ hl h₃ h₄, updateFormulation_ok_meta h₁ hl' h₃ h₄]
        | some ents =>
          by_cases h₅ : 1/10 < mathAbs (sumPct ents - 100)
          · rw [updateFormulation_mixFail h₁ hl h₃ h₄ h₅,
                updateFormulation_mixFail h₁ hl' h₃ h₄ h₅]
          · rw [updateFormulation_ok_ents h₁ hl h₃ h₄ h₅,
                updateFormulation_ok_ents h₁ hl' h₃ h₄ h₅]

lemma mapIdxFrom_congr {α β : Type} {f g : Nat → α → β} (h : ∀ i a, f i a = g i a) :
    ∀ (n : Nat) (l : List α), mapIdxFrom f n l = mapIdxFrom g n l := by
  intro n l
  induction l generalizing n with
  | nil => rfl
  | cons a l ih => simp [mapIdxFrom, h, ih]

/-- The replacement rows built by Update do not depend on the stored
formulation row's `totalCost` (the denominator comes from the payload). -/
lemma updatedRows_setTC (s : DBState) (fid : Nat) (u : UpdateInput) (ents : List IngEntry)
    (q : ℚ) :
    updatedRows (replaceForm s fid (fun r' => { r' with totalCost := q })) fid u ents =
      updatedRows s fid u ents := by
  unfold updatedRows
  exact mapIdxFrom_congr
    (fun i e => mkFIRow_congr
      (by rw [removeFIRows_ingredients, metaState_ingredients, replaceForm_ingredients,
              removeFIRows_ingredients, metaState_ingredients]) fid _ i e) 0 ents

lemma createdRows_map_fiProj (s : DBState) (c : CreateInput) :
    (createdRows s c).map fiProj = (sortPctDesc c.ingredients).map entProj := by
  unfold createdRows
  apply map_mapIdxFrom
  intro i e
  rfl

lemma getFormulationById_some {s : DBState} {fid : Nat} {f : FormulationRow}
    (hf : lookupFormulation s fid = some f) :
    getFormulationById s fid =
      .ok (f, (sortDispAsc (fiRowsOf s fid)).map (annotateRow s)) := by
  unfold getFormulationById
  rw [hf]

/-- The JS value of `(q / 0) * 100`: `Infinity`, `-Infinity` or `NaN`
according to the sign of `q` — never a finite number. -/
lemma jsCostPct_zero (q : ℚ) :
    jsMulQ (jsDivQ q 0) 100 =
      if 0 < q then JSNum.inf else if q < 0 then JSNum.negInf else JSNum.nan := by
  unfold jsDivQ jsMulQ
  by_cases h₁ : 0 < q
  · simp [h₁, show (0 : ℚ) < 100 by norm_num]
  · by_cases h₂ : q < 0 <;> simp [h₁, h₂, show (0 : ℚ) < 100 by norm_num]

lemma mkFIRow_ingredientCost (s : DBState) (fid : Nat) (d : ℚ) (i : Nat) (e : IngEntry) :
    (mkFIRow s fid d i e).ingredientCost = unitCostOrZero s e.ingredientId * e.quantity := rfl

lemma mkFIRow_costPercentage (s : DBState) (fid : Nat) (d : ℚ) (i : Nat) (e : IngEntry) :
    (mkFIRow s fid d i e).costPercentage =
      jsMulQ (jsDivQ ((mkFIRow s fid d i e).ingredientCost) d) 100 := rfl

/-- C1 counterexample: an Update whose supplied mix sums to 50 is
rejected and nothing is persisted, but the surfaced error is the generic
database failure produced by `handleDatabaseError` from the thrown
validation error — not the `InvalidIngredientMix` error carrying the
rounded sum that the claim promises for every Create or Update call. -/
theorem claim1_update_error_kind_counterexample :
    updateFormulation exState 0 exUpdateBad = (.error .databaseError, exState) ∧
    (Except.error OpError.databaseError : Except OpError Unit) ≠
      .error (.invalidIngredientMix (toFixed1 (sumPct [exEntry50]))) := by
  have hv : validUpdateInputB exUpdateBad = true := by
    norm_num [validUpdateInputB, exUpdateBad, validEntryB, exEntry50]
  have hl : lookupFormulation exState 0 = some exFormDraft := rfl
  have hs : ¬ exFormDraft.status = "active" := by decide
  have hi : exUpdateBad.ingredients = some [exEntry50] := rfl
  have hd : 1/10 < mathAbs (sumPct [exEntry50] - 100) := by
    norm_num [mathAbs, sumPct, exEntry50]
  exact ⟨updateFormulation_mixFail hv hl hs hi hd, by simp⟩

/-- C1 (amended): a Create whose valid payload's percentages deviate from
100 by more than 0.1 is rejected with `InvalidIngredientMix` carrying the
`toFixed(1)`-rounded sum and the state is unchanged; an Update supplying
such a mix (formulation existing, not active) is likewise rejected with
nothing persisted, but surfaces the generic database failure; and every
accepted Create or ingredient-supplying Update has its percentage sum
within 0.1 of 100. -/
theorem claim1_mix_tolerance
    (s : DBState) (c : CreateInput)
    (s₂ : DBState) (fid : Nat) (u : UpdateInput) (ents : List IngEntry) (f : FormulationRow)
    (t : DBState) (c' : CreateInput) (pr : FormulationRow × List FIRow)
    (t₂ : DBState) (fid' : Nat) (u' : UpdateInput) (ents' : List IngEntry) (r' : Unit)
    (hc : validCreateInputB c = true)
    (hdev : 1/10 < mathAbs (sumPct c.ingredients - 100))
    (hu : validUpdateInputB u = true)
    (hents : u.ingredients = some ents)
    (hf : lookupFormulation s₂ fid = some f)
    (hact : ¬ f.status = "active")
    (hdev₂ : 1/10 < mathAbs (sumPct ents - 100))
    (hok : (createFormulation t c').1 = .ok pr)
    (hents' : u'.ingredients = some ents')
    (hok' : (updateFormulation t₂ fid' u').1 = .ok r') :
    createFormulation s c =
      (.error (.invalidIngredientMix (toFixed1 (sumPct c.ingredients))), s) ∧
    updateFormulation s₂ fid u = (.error .databaseError, s₂) ∧
    mathAbs (sumPct c'.ingredients - 100) ≤ 1/10 ∧
    mathAbs (sumPct ents' - 100) ≤ 1/10 :=
  ⟨createFormulation_mix s hc hdev,
   updateFormulation_mixFail hu hf hact hents hdev₂,
   (createFormulation_ok_inv hok).2.1,
   (updateFormulation_ok_ents_inv hents' hok').2.2.1⟩

/-- C1 witness at concrete inputs: the 50+49 create is rejected with the
mix error carrying 99, the 50 update is rejected generically, and the
accepted create/update mixes sum to exactly 100. -/
theorem claim1_mix_tolerance_witness :
    validCreateInputB exCreateBad = true ∧
    1/10 < mathAbs (sumPct exCreateBad.ingredients - 100) ∧
    validUpdateInputB exUpdateBad = true ∧
    exUpdateBad.ingredients = some [exEntry50] ∧
    lookupFormulation exState 0 = some exFormDraft ∧
    ¬ exFormDraft.status = "active" ∧
    1/10 < mathAbs (sumPct [exEntry50] - 100) ∧
    (createFormulation exState exCreateGood).1 =
      .ok (createdForm exState exCreateGood, createdRows exState exCreateGood) ∧
    exUpdateGood.ingredients = some [exEntryFull] ∧
    (updateFormulation exState 0 exUpdateGood).1 = .ok () ∧
    (createFormulation exState exCreateBad =
        (.error (.invalidIngredientMix (toFixed1 (sumPct exCreateBad.ingredients))), exState) ∧
      updateFormulation exState 0 exUpdateBad = (.error .databaseError, exState) ∧
      mathAbs (sumPct exCreateGood.ingredients - 100) ≤ 1/10 ∧
      mathAbs (sumPct [exEntryFull] - 100) ≤ 1/10) := by
  have hc : validCreateInputB exCreateBad = true := by
    norm_num [validCreateInputB, exCreateBad, statusOkB, validEntryB, exEntry50, exEntry49] <;>
      decide
  have hdev : 1/10 < mathAbs (sumPct exCreateBad.ingredients - 100) := by
    norm_num [mathAbs, sumPct, exCreateBad, exEntry50, exEntry49]
  have hu : validUpdateInputB exUpdateBad = true := by
    norm_num [validUpdateInputB, exUpdateBad, validEntryB, exEntry50]
  have hents : exUpdateBad.ingredients = some [exEntry50] := rfl
  have hf : lookupFormulation exState 0 = some exFormDraft := rfl
  have hact : ¬ exFormDraft.status = "active" := by decide
  have hdev₂ : 1/10 < mathAbs (sumPct [exEntry50] - 100) := by
    norm_num [mathAbs, sumPct, exEntry50]
  have hcg : validCreateInputB exCreateGood = true := by
    norm_num [validCreateInputB, exCreateGood, statusOkB, validEntryB, exEntryFull] <;> decide
  have hdg : ¬ 1/10 < mathAbs (sumPct exCreateGood.ingredients - 100) := by
    norm_num [mathAbs, sumPct, exCreateGood, exEntryFull]
  have hok : (createFormulation exState exCreateGood).1 =
      .ok (createdForm exState exCreateGood, createdRows exState exCreateGood) := by
    rw [createFormulation_ok exState hcg hdg]
  have hug : validUpdateInputB exUpdateGood = true := by
    norm_num [validUpdateInputB, exUpdateGood, validEntryB, exEntryFull]
  have hdg₂ : ¬ 1/10 < mathAbs (sumPct [exEntryFull] - 100) := by
    norm_num [mathAbs, sumPct, exEntryFull]
  have hents' : exUpdateGood.ingredients = some [exEntryFull] := rfl
  have hok' : (updateFormulation exState 0 exUpdateGood).1 = .ok () := by
    rw [updateFormulation_ok_ents hug hf hact hents' hdg₂]
  exact ⟨hc, hdev, hu, hents, hf, hact, hdev₂, hok, hents', hok',
    claim1_mix_tolerance exState exCreateBad exState 0 exUpdateBad [exEntry50] exFormDraft
      exState exCreateGood (createdForm exState exCreateGood, createdRows exState exCreateGood)
      exState 0 exUpdateGood [exEntryFull] ()
      hc hdev hu hents hf hact hdev₂ hok hents' hok'⟩

/-- C2 counterexample: a successful Create with `totalCost = 0` over an
ingredient with positive unit cost persists a row whose `costPercentage`
is `Infinity` (the division by zero is performed), not `0` as the claim
states. -/
theorem claim2_costPercentage_counterexample :
    resultOk (createFormulation exState exCreateZero).1 = true ∧
    ((createFormulation exState exCreateZero).2.formIngredients.map
        (fun r => r.costPercentage)) = [JSNum.num 100, JSNum.inf] ∧
    JSNum.inf ≠ JSNum.num 0 := by
  have h₁ : validCreateInputB exCreateZero = true := by
    norm_num [validCreateInputB, exCreateZero, statusOkB, validEntryB, exEntryFull] <;> decide
  have h₂ : ¬ 1/10 < mathAbs (sumPct exCreateZero.ingredients - 100) := by
    norm_num [mathAbs, sumPct, exCreateZero, exEntryFull]
  have he := createFormulation_ok exState h₁ h₂
  refine ⟨?_, ?_, by simp⟩
  · rw [show (createFormulation exState exCreateZero).1 = _ from congrArg Prod.fst he]
    rfl
  · rw [show (createFormulation exState exCreateZero).2 = _ from congrArg Prod.snd he]
    norm_num [createdState, createdRows, sortPctDesc, insertPctDesc, mapIdxFrom, mkFIRow,
      unitCostOrZero, lookupIngredient, exState, exFIRow, exEntryFull, exIngCorn, exIngSoy,
      exCreateZero, jsDivQ, jsMulQ, List.find?]

/-- C2 (amended): when the Create payload's `totalCost` is `0` (resp. the
Update payload's `totalCost` is absent or `0`), the cost allocation still
performs the division by zero: under JS arithmetic every inserted row's
`costPercentage` is `Infinity` when its cost contribution is positive,
`-Infinity` when negative and `NaN` when zero — never the number `0`. -/
theorem claim2_zero_total_cost
    (s : DBState) (c : CreateInput) (pr : FormulationRow × List FIRow)
    (s₂ : DBState) (fid : Nat) (u : UpdateInput) (ents : List IngEntry) (r : Unit)
    (hok : (createFormulation s c).1 = .ok pr)
    (h0 : c.totalCost = 0)
    (hents : u.ingredients = some ents)
    (hok₂ : (updateFormulation s₂ fid u).1 = .ok r)
    (h0' : u.totalCost.getD 0 = 0) :
    (∀ row ∈ pr.2, row.costPercentage =
        if 0 < row.ingredientCost then JSNum.inf
        else if row.ingredientCost < 0 then JSNum.negInf
        else JSNum.nan) ∧
    (∀ row ∈ pr.2, row.costPercentage ≠ JSNum.num 0) ∧
    (∀ row ∈ fiRowsOf (updateFormulation s₂ fid u).2 fid, row.costPercentage =
        if 0 < row.ingredientCost then JSNum.inf
        else if row.ingredientCost < 0 then JSNum.negInf
        else JSNum.nan) ∧
    (∀ row ∈ fiRowsOf (updateFormulation s₂ fid u).2 fid,
        row.costPercentage ≠ JSNum.num 0) := by
  obtain ⟨-, -, hpr, -⟩ := createFormulation_ok_inv hok
  obtain ⟨-, -, -, hst⟩ := updateFormulation_ok_ents_inv hents hok₂
  have hcreate : ∀ row ∈ pr.2, row.costPercentage =
      if 0 < row.ingredientCost then JSNum.inf
      else if row.ingredientCost < 0 then JSNum.negInf
      else JSNum.nan := by
    intro row hrow
    rw [hpr] at hrow
    simp only [] at hrow
    unfold createdRows at hrow
    rcases mem_mapIdxFrom _ _ _ _ hrow with ⟨i, e, -, rfl⟩
    rw [mkFIRow_costPercentage, h0]
    exact jsCostPct_zero _
  have hupdate : ∀ row ∈ fiRowsOf (updateFormulation s₂ fid u).2 fid, row.costPercentage =
      if 0 < row.ingredientCost then JSNum.inf
      else if row.ingredientCost < 0 then JSNum.negInf
      else JSNum.nan := by
    intro row hrow
    rw [hst, fiRowsOf_updatedState] at hrow
    unfold updatedRows at hrow
    rcases mem_mapIdxFrom _ _ _ _ hrow with ⟨i, e, -, rfl⟩
    rw [mkFIRow_costPercentage, h0']
    exact jsCostPct_zero _
  refine ⟨hcreate, ?_, hupdate, ?_⟩
  · intro row hrow
    rw [hcreate row hrow]
    split_ifs <;> simp
  · intro row hrow
    rw [hupdate row hrow]
    split_ifs <;> simp

/-- C2 witness: the `totalCost = 0` create and the no-`totalCost` update
at the concrete state, with the characterization of every inserted row's
`costPercentage`. -/
theorem claim2_zero_total_cost_witness :
    (createFormulation exState exCreateZero).1 =
      .ok (createdForm exState exCreateZero, createdRows exState exCreateZero) ∧
    exCreateZero.totalCost = 0 ∧
    exUpdateGood.ingredients = some [exEntryFull] ∧
    (updateFormulation exState 0 exUpdateGood).1 = .ok () ∧
    exUpdateGood.totalCost.getD 0 = 0 ∧
    ((∀ row ∈ (createdForm exState exCreateZero, createdRows exState exCreateZero).2,
        row.costPercentage =
          if 0 < row.ingredientCost then JSNum.inf
          else if row.ingredientCost < 0 then JSNum.negInf
          else JSNum.nan) ∧
      (∀ row ∈ (createdForm exState exCreateZero, createdRows exState exCreateZero).2,
        row.costPercentage ≠ JSNum.num 0) ∧
      (∀ row ∈ fiRowsOf (updateFormulation exState 0 exUpdateGood).2 0, row.costPercentage =
          if 0 < row.ingredientCost then JSNum.inf
          else if row.ingredientCost < 0 then JSNum.negInf
          else JSNum.nan) ∧
      (∀ row ∈ fiRowsOf (updateFormulation exState 0 exUpdateGood).2 0,
        row.costPercentage ≠ JSNum.num 0)) := by
  have h₁ : validCreateInputB exCreateZero = true := by
    norm_num [validCreateInputB, exCreateZero, statusOkB, validEntryB, exEntryFull] <;> decide
  have h₂ : ¬ 1/10 < mathAbs (sumPct exCreateZero.ingredients - 100) := by
    norm_num [mathAbs, sumPct, exCreateZero, exEntryFull]
  have hok : (createFormulation exState exCreateZero).1 =
      .ok (createdForm exState exCreateZero, createdRows exState exCreateZero) := by
    rw [createFormulation_ok exState h₁ h₂]
  have h0 : exCreateZero.totalCost = 0 := rfl
  have hents : exUpdateGood.ingredients = some [exEntryFull] := rfl
  have hf : lookupFormulation exState 0 = some exFormDraft := rfl
  have hact : ¬ exFormDraft.status = "active" := by decide
  have hug : validUpdateInputB exUpdateGood = true := by
    norm_num [validUpdateInputB, exUpdateGood, validEntryB, exEntryFull]
  have hdg₂ : ¬ 1/10 < mathAbs (sumPct [exEntryFull] - 100) := by
    norm_num [mathAbs, sumPct, exEntryFull]
  have hok₂ : (updateFormulation exState 0 exUpdateGood).1 = .ok () := by
    rw [updateFormulation_ok_ents hug hf hact hents hdg₂]
  have h0' : exUpdateGood.totalCost.getD 0 = 0 := rfl
  exact ⟨hok, h0, hents, hok₂, h0',
    claim2_zero_total_cost exState exCreateZero
      (createdForm exState exCreateZero, createdRows exState exCreateZero)
      exState 0 exUpdateGood [exEntryFull] () hok h0 hents hok₂ h0'⟩

/-- C3: evaluation at the failing input. A Create supplying the ordered
entries `[corn 40%, soy 60%]` inserts its rows in percentage-descending
order — the soy entry (input position 1) gets
`sequenceOrder = displayOrder = 0` and the corn entry (input position 0)
gets `1` — because `ingredientData.sort(...)` mutates the parsed array in
place before the row-building map runs. The Update path, whose
row-building map runs before the sort, assigns the input positions as the
claim states. -/
theorem claim3_sequence_order_bug :
    ((createFormulation exState exCreateMix).2.formIngredients.filter
        (fun r => decide (r.formulationId = 1))).map
      (fun r => (r.ingredientId, r.sequenceOrder, r.displayOrder)) = [(2, 0, 0), (1, 1, 1)] ∧
    ((updateFormulation exState 0 exUpdateMix).2.formIngredients.filter
        (fun r => decide (r.formulationId = 0))).map
      (fun r => (r.ingredientId, r.sequenceOrder, r.displayOrder)) = [(1, 0, 0), (2, 1, 1)] := by
  have h₁ : validCreateInputB exCreateMix = true := by
    norm_num [validCreateInputB, exCreateMix, statusOkB, validEntryB, exEntryA, exEntryB] <;>
      decide
  have h₂ : ¬ 1/10 < mathAbs (sumPct exCreateMix.ingredients - 100) := by
    norm_num [mathAbs, sumPct, exCreateMix, exEntryA, exEntryB]
  have hug : validUpdateInputB exUpdateMix = true := by
    norm_num [validUpdateInputB, exUpdateMix, validEntryB, exEntryA, exEntryB]
  have hf : lookupFormulation exState 0 = some exFormDraft := rfl
  have hact : ¬ exFormDraft.status = "active" := by decide
  have hents : exUpdateMix.ingredients = some [exEntryA, exEntryB] := rfl
  have hdev : ¬ 1/10 < mathAbs (sumPct [exEntryA, exEntryB] - 100) := by
    norm_num [mathAbs, sumPct, exEntryA, exEntryB]
  constructor
  · rw [show (createFormulation exState exCreateMix).2 = _ from
      congrArg Prod.snd (createFormulation_ok exState h₁ h₂)]
    norm_num [createdState, createdRows, sortPctDesc, insertPctDesc, mapIdxFrom, mkFIRow,
      unitCostOrZero, lookupIngredient, List.find?, exState, exFIRow, exCreateMix,
      exEntryA, exEntryB, exIngCorn, exIngSoy, jsDivQ, jsMulQ]
  · rw [show (updateFormulation exState 0 exUpdateMix).2 = _ from
      congrArg Prod.snd (updateFormulation_ok_ents hug hf hact hents hdev)]
    norm_num [updatedState, updatedRows, metaState, metadataPresent, removeFIRows, replaceForm,
      mapIdxFrom, mkFIRow, unitCostOrZero, lookupIngredient, List.find?, mainIngredientsOf,
      sortPctDesc, insertPctDesc, exState, exFIRow, exUpdateMix, exEntryA, exEntryB,
      exIngCorn, exIngSoy, jsDivQ, jsMulQ]

/-- C4: a Create or Update call whose result is an error leaves the
state exactly as it was — every failing branch, including the thrown
mid-transaction percentage error, rolls the whole transaction back — and
after a failed Create, reading the would-be formulation id (the fresh id
the insert would have used) yields `NotFound`. -/
theorem claim4_failure_atomicity
    (s : DBState) (c : CreateInput) (fid : Nat) (u : UpdateInput) (e e' : OpError)
    (hwf : IdsBelowNext s)
    (hce : (createFormulation s c).1 = .error e)
    (hue : (updateFormulation s fid u).1 = .error e') :
    (createFormulation s c).2 = s ∧
    getFormulationById (createFormulation s c).2 s.nextId = .error .notFound ∧
    (updateFormulation s fid u).2 = s := by
  have h1 := createFormulation_error_state hce
  refine ⟨h1, ?_, updateFormulation_error_state hue⟩
  rw [h1]
  simp [getFormulationById, lookupFormulation_nextId_none hwf]

/-- C4 witness: the out-of-tolerance create and a not-found update leave
the concrete state untouched, and the would-be id reads back as
`NotFound`. -/
theorem claim4_failure_atomicity_witness :
    IdsBelowNext exState ∧
    (createFormulation exState exCreateBad).1 =
      .error (.invalidIngredientMix (toFixed1 (sumPct exCreateBad.ingredients))) ∧
    (updateFormulation exState 5 exUpdateGood).1 = .error .notFound ∧
    ((createFormulation exState exCreateBad).2 = exState ∧
      getFormulationById (createFormulation exState exCreateBad).2 exState.nextId =
        .error .notFound ∧
      (updateFormulation exState 5 exUpdateGood).2 = exState) := by
  have hwf : IdsBelowNext exState := by decide
  have hc : validCreateInputB exCreateBad = true := by
    norm_num [validCreateInputB, exCreateBad, statusOkB, validEntryB, exEntry50, exEntry49] <;>
      decide
  have hdev : 1/10 < mathAbs (sumPct exCreateBad.ingredients - 100) := by
    norm_num [mathAbs, sumPct, exCreateBad, exEntry50, exEntry49]
  have hce : (createFormulation exState exCreateBad).1 =
      .error (.invalidIngredientMix (toFixed1 (sumPct exCreateBad.ingredients))) := by
    rw [createFormulation_mix exState hc hdev]
  have hug : validUpdateInputB exUpdateGood = true := by
    norm_num [validUpdateInputB, exUpdateGood, validEntryB, exEntryFull]
  have hnf : lookupFormulation exState 5 = none := rfl
  have hue : (updateFormulation exState 5 exUpdateGood).1 = .error .notFound := by
    rw [updateFormulation_notFound hug hnf]
  exact ⟨hwf, hce, hue,
    claim4_failure_atomicity exState exCreateBad 5 exUpdateGood
      (.invalidIngredientMix (toFixed1 (sumPct exCreateBad.ingredients))) .notFound
      hwf hce hue⟩

/-- C5: on a formulation whose status is `active`, Update and Delete
always fail with `InvalidState` and return the state unchanged; and no
other operation touches it: toggling it to `active` again leaves its row
and ingredient rows as they were (only the transition out of `active`,
`toggle(false)`, changes it), and Create and Duplicate only ever add rows
under the fresh id, leaving the active formulation and its ingredient
rows intact. -/
theorem claim5_active_immutable
    (s : DBState) (fid : Nat) (f : FormulationRow) (u : UpdateInput) (c : CreateInput)
    (nm : String)
    (hwf : IdsBelowNext s)
    (hf : lookupFormulation s fid = some f)
    (hact : f.status = "active")
    (hu : validUpdateInputB u = true) :
    updateFormulation s fid u = (.error .invalidState, s) ∧
    deleteFormulation s fid = (.error .invalidState, s) ∧
    lookupFormulation (toggleFormulationStatus s fid true).2 fid = some f ∧
    fiRowsOf (toggleFormulationStatus s fid true).2 fid = fiRowsOf s fid ∧
    lookupFormulation (createFormulation s c).2 fid = some f ∧
    fiRowsOf (createFormulation s c).2 fid = fiRowsOf s fid ∧
    lookupFormulation (duplicateFormulation s fid nm).2 fid = some f ∧
    fiRowsOf (duplicateFormulation s fid nm).2 fid = fiRowsOf s fid := by
  have hne : fid ≠ s.nextId := ne_of_lt (lookupFormulation_lt_nextId hwf hf)
  have hid : f.id = fid := lookupFormulation_id hf
  have htog : (toggleFormulationStatus s fid true).2 =
      replaceForm s fid (fun r => { r with status := if true then "active" else "draft" }) :=
    congrArg Prod.snd (toggleFormulationStatus_some hf true)
  refine ⟨updateFormulation_active hu hf hact, deleteFormulation_active hf hact,
    ?_, ?_, ?_, ?_, ?_, ?_⟩
  · rw [htog, lookupFormulation_replaceForm s fid fid
      (fun r => { r with status := if true then "active" else "draft" }) (fun r => rfl), hf]
    simp only [Option.map_some', if_pos hid, if_true]
    rw [FormulationRow_setStatus_self f "active" hact]
  · rw [htog, fiRowsOf_replaceForm]
  · rcases createFormulation_state_cases s c with h | h
    · rw [h]; exact hf
    · rw [h]; exact lookupFormulation_createdState c hf
  · rcases createFormulation_state_cases s c with h | h
    · rw [h]
    · rw [h]; exact fiRowsOf_createdState c hne
  · rcases duplicateFormulation_state_cases s fid nm with h | ⟨c₀, h⟩
    · rw [h]; exact hf
    · rw [h]; exact lookupFormulation_createdState c₀ hf
  · rcases duplicateFormulation_state_cases s fid nm with h | ⟨c₀, h⟩
    · rw [h]
    · rw [h]; exact fiRowsOf_createdState c₀ hne

/-- C5 witness: the concrete active formulation is rejected by Update and
Delete and survives toggling-to-active, Create and Duplicate unchanged. -/
theorem claim5_active_immutable_witness :
    IdsBelowNext exStateActive ∧
    lookupFormulation exStateActive 0 = some exFormActive ∧
    exFormActive.status = "active" ∧
    validUpdateInputB exUpdateGood = true ∧
    (updateFormulation exStateActive 0 exUpdateGood = (.error .invalidState, exStateActive) ∧
      deleteFormulation exStateActive 0 = (.error .invalidState, exStateActive) ∧
      lookupFormulation (toggleFormulationStatus exStateActive 0 true).2 0 =
        some exFormActive ∧
      fiRowsOf (toggleFormulationStatus exStateActive 0 true).2 0 =
        fiRowsOf exStateActive 0 ∧
      lookupFormulation (createFormulation exStateActive exCreateGood).2 0 =
        some exFormActive ∧
      fiRowsOf (createFormulation exStateActive exCreateGood).2 0 =
        fiRowsOf exStateActive 0 ∧
      lookupFormulation (duplicateFormulation exStateActive 0 "Copy").2 0 =
        some exFormActive ∧
      fiRowsOf (duplicateFormulation exStateActive 0 "Copy").2 0 =
        fiRowsOf exStateActive 0) := by
  have hwf : IdsBelowNext exStateActive := by decide
  have hf : lookupFormulation exStateActive 0 = some exFormActive := rfl
  have hact : exFormActive.status = "active" := rfl
  have hu : validUpdateInputB exUpdateGood = true := by
    norm_num [validUpdateInputB, exUpdateGood, validEntryB, exEntryFull]
  exact ⟨hwf, hf, hact, hu,
    claim5_active_immutable exStateActive 0 exFormActive exUpdateGood exCreateGood "Copy"
      hwf hf hact hu⟩

/-- C6: after a successful Create, the new formulation's
`mainIngredients` is the `{ ingredientId, percentage }` projection of the
first five entries of `sortPctDesc` applied to the supplied list — and
`sortPctDesc` is exactly the stable percentage-descending sort: a
permutation of the input, sorted by percentage descending, in which the
entries carrying any given percentage keep their original relative order.
The same holds for the stored row after a successful Update that supplies
ingredient entries. -/
theorem claim6_main_ingredients_digest
    (s : DBState) (c : CreateInput) (pr : FormulationRow × List FIRow)
    (s₂ : DBState) (fid : Nat) (u : UpdateInput) (ents : List IngEntry) (r : Unit)
    (f₂ : FormulationRow)
    (hok : (createFormulation s c).1 = .ok pr)
    (hents : u.ingredients = some ents)
    (hok₂ : (updateFormulation s₂ fid u).1 = .ok r)
    (hf₂ : lookupFormulation (updateFormulation s₂ fid u).2 fid = some f₂) :
    (pr.1.mainIngredients =
        ((sortPctDesc c.ingredients).take 5).map (fun e => (e.ingredientId, e.percentage)) ∧
      List.Perm (sortPctDesc c.ingredients) c.ingredients ∧
      (sortPctDesc c.ingredients).Pairwise (fun a b => b.percentage ≤ a.percentage) ∧
      ∀ p : ℚ, (sortPctDesc c.ingredients).filter (fun e => decide (e.percentage = p)) =
        c.ingredients.filter (fun e => decide (e.percentage = p))) ∧
    (f₂.mainIngredients =
        ((sortPctDesc ents).take 5).map (fun e => (e.ingredientId, e.percentage)) ∧
      List.Perm (sortPctDesc ents) ents ∧
      (sortPctDesc ents).Pairwise (fun a b => b.percentage ≤ a.percentage) ∧
      ∀ p : ℚ, (sortPctDesc ents).filter (fun e => decide (e.percentage = p)) =
        ents.filter (fun e => decide (e.percentage = p))) := by
  obtain ⟨-, -, hpr, -⟩ := createFormulation_ok_inv hok
  obtain ⟨-, ⟨f₀, hf₀, -⟩, -, hst⟩ := updateFormulation_ok_ents_inv hents hok₂
  refine ⟨⟨?_, sortPctDesc_perm _, sortPctDesc_pairwise _, fun p => sortPctDesc_filter _ p⟩,
          ⟨?_, sortPctDesc_perm _, sortPctDesc_pairwise _, fun p => sortPctDesc_filter _ p⟩⟩
  · rw [hpr]
    rfl
  · obtain ⟨f', hf', hmain, -⟩ := lookupFormulation_updatedState u ents hf₀
    rw [hst] at hf₂
    have h := hf₂.symm.trans hf'
    injection h with h
    rw [h, hmain]
    rfl

/-- C6 witness: the two-entry 40%-then-60% mix on Create and Update; the
digest is `[(soy, 60), (corn, 40)]` and the sorted list satisfies the
permutation, sortedness and stability properties. -/
theorem claim6_main_ingredients_digest_witness :
    (createFormulation exState exCreateMix).1 =
      .ok (createdForm exState exCreateMix, createdRows exState exCreateMix) ∧
    exUpdateMix.ingredients = some [exEntryA, exEntryB] ∧
    (updateFormulation exState 0 exUpdateMix).1 = .ok () ∧
    lookupFormulation (updateFormulation exState 0 exUpdateMix).2 0 =
      some { id := 0, name := "Base", description := none, status := "draft", totalCost := 10,
             ingredientCount := 2, mainIngredients := [(2, 60), (1, 40)] } ∧
    (((createdForm exState exCreateMix, createdRows exState exCreateMix).1.mainIngredients =
        ((sortPctDesc exCreateMix.ingredients).take 5).map
          (fun e => (e.ingredientId, e.percentage)) ∧
      List.Perm (sortPctDesc exCreateMix.ingredients) exCreateMix.ingredients ∧
      (sortPctDesc exCreateMix.ingredients).Pairwise
        (fun a b => b.percentage ≤ a.percentage) ∧
      ∀ p : ℚ,
        (sortPctDesc exCreateMix.ingredients).filter (fun e => decide (e.percentage = p)) =
          exCreateMix.ingredients.filter (fun e => decide (e.percentage = p))) ∧
     (FormulationRow.mainIngredients
          { id := 0, name := "Base", description := none, status := "draft", totalCost := 10,
            ingredientCount := 2, mainIngredients := [(2, 60), (1, 40)] } =
        ((sortPctDesc [exEntryA, exEntryB]).take 5).map
          (fun e => (e.ingredientId, e.percentage)) ∧
      List.Perm (sortPctDesc [exEntryA, exEntryB]) [exEntryA, exEntryB] ∧
      (sortPctDesc [exEntryA, exEntryB]).Pairwise
        (fun a b => b.percentage ≤ a.percentage) ∧
      ∀ p : ℚ,
        (sortPctDesc [exEntryA, exEntryB]).filter (fun e => decide (e.percentage = p)) =
          [exEntryA, exEntryB].filter (fun e => decide (e.percentage = p)))) := by
  have h₁ : validCreateInputB exCreateMix = true := by
    norm_num [validCreateInputB, exCreateMix, statusOkB, validEntryB, exEntryA, exEntryB] <;>
      decide
  have h₂ : ¬ 1/10 < mathAbs (sumPct exCreateMix.ingredients - 100) := by
    norm_num [mathAbs, sumPct, exCreateMix, exEntryA, exEntryB]
  have hok : (createFormulation exState exCreateMix).1 =
      .ok (createdForm exState exCreateMix, createdRows exState exCreateMix) := by
    rw [createFormulation_ok exState h₁ h₂]
  have hug : validUpdateInputB exUpdateMix = true := by
    norm_num [validUpdateInputB, exUpdateMix, validEntryB, exEntryA, exEntryB]
  have hf : lookupFormulation exState 0 = some exFormDraft := rfl
  have hact : ¬ exFormDraft.status = "active" := by decide
  have hents : exUpdateMix.ingredients = some [exEntryA, exEntryB] := rfl
  have hdev : ¬ 1/10 < mathAbs (sumPct [exEntryA, exEntryB] - 100) := by
    norm_num [mathAbs, sumPct, exEntryA, exEntryB]
  have hup := updateFormulation_ok_ents hug hf hact hents hdev
  have hok₂ : (updateFormulation exState 0 exUpdateMix).1 = .ok () := by rw [hup]
  have hf₂ : lookupFormulation (updateFormulation exState 0 exUpdateMix).2 0 =
      some { id := 0, name := "Base", description := none, status := "draft", totalCost := 10,
             ingredientCount := 2, mainIngredients := [(2, 60), (1, 40)] } := by
    rw [show (updateFormulation exState 0 exUpdateMix).2 = _ from congrArg Prod.snd hup]
    norm_num [updatedState, updatedRows, metaState, metadataPresent, removeFIRows, replaceForm,
      mainIngredientsOf, sortPctDesc, insertPctDesc, lookupFormulation, List.find?,
      exState, exFormDraft, exUpdateMix, exEntryA, exEntryB]
  exact ⟨hok, hents, hok₂, hf₂,
    claim6_main_ingredients_digest exState exCreateMix
      (createdForm exState exCreateMix, createdRows exState exCreateMix)
      exState 0 exUpdateMix [exEntryA, exEntryB] ()
      { id := 0, name := "Base", description := none, status := "draft", totalCost := 10,
        ingredientCount := 2, mainIngredients := [(2, 60), (1, 40)] }
      hok hents hok₂ hf₂⟩

/-- C7: every row inserted by a successful Create or ingredient-supplying
Update carries `ingredientCost` equal to the referenced ingredient's
current unit cost (zero when the lookup finds no ingredient) times the
row's quantity; and success of either call never depends on the
ingredients table — a missing lookup degrades to cost zero instead of
failing. -/
theorem claim7_cost_contribution
    (s : DBState) (c : CreateInput) (pr : FormulationRow × List FIRow)
    (s₂ : DBState) (fid : Nat) (u : UpdateInput) (ents : List IngEntry) (r : Unit)
    (tbl tbl' : List IngredientRow)
    (hok : (createFormulation s c).1 = .ok pr)
    (hents : u.ingredients = some ents)
    (hok₂ : (updateFormulation s₂ fid u).1 = .ok r) :
    (∀ row ∈ pr.2, row.ingredientCost = unitCostOrZero s row.ingredientId * row.quantity) ∧
    (∀ row ∈ pr.2, lookupIngredient s row.ingredientId = none → row.ingredientCost = 0) ∧
    (∀ row ∈ fiRowsOf (updateFormulation s₂ fid u).2 fid,
        row.ingredientCost = unitCostOrZero s₂ row.ingredientId * row.quantity) ∧
    resultOk (createFormulation { s with ingredients := tbl } c).1 =
      resultOk (createFormulation { s with ingredients := tbl' } c).1 ∧
    resultOk (updateFormulation { s₂ with ingredients := tbl } fid u).1 =
      resultOk (updateFormulation { s₂ with ingredients := tbl' } fid u).1 := by
  obtain ⟨-, -, hpr, -⟩ := createFormulation_ok_inv hok
  obtain ⟨-, -, -, hst⟩ := updateFormulation_ok_ents_inv hents hok₂
  refine ⟨?_, ?_, ?_, createFormulation_resultOk _ _ c,
    updateFormulation_resultOk_ingTable s₂ tbl tbl' fid u⟩
  · intro row hrow
    rw [hpr] at hrow
    simp only [] at hrow
    unfold createdRows at hrow
    rcases mem_mapIdxFrom _ _ _ _ hrow with ⟨i, e, -, rfl⟩
    rfl
  · intro row hrow hnone
    rw [hpr] at hrow
    simp only [] at hrow
    unfold createdRows at hrow
    rcases mem_mapIdxFrom _ _ _ _ hrow with ⟨i, e, -, rfl⟩
    rw [mkFIRow_ingredientId] at hnone
    rw [mkFIRow_ingredientCost, show unitCostOrZero s e.ingredientId = 0 from by
      unfold unitCostOrZero; rw [hnone]]
    exact zero_mul _
  · intro row hrow
    rw [hst, fiRowsOf_updatedState] at hrow
    unfold updatedRows at hrow
    rcases mem_mapIdxFrom _ _ _ _ hrow with ⟨i, e, -, rfl⟩
    rw [mkFIRow_ingredientCost, mkFIRow_ingredientId, mkFIRow_quantity,
      unitCostOrZero_congr
        (s := removeFIRows (metaState s₂ fid u) fid) (t := s₂)
        (by rw [removeFIRows_ingredients, metaState_ingredients]) e.ingredientId]

/-- C7 witness: the concrete create and update, with the per-row cost
formula and the independence of success from the ingredients table
(compared between the empty table and the stocked one). -/
theorem claim7_cost_contribution_witness :
    (createFormulation exState exCreateGood).1 =
      .ok (createdForm exState exCreateGood, createdRows exState exCreateGood) ∧
    exUpdateGood.ingredients = some [exEntryFull] ∧
    (updateFormulation exState 0 exUpdateGood).1 = .ok () ∧
    ((∀ row ∈ (createdForm exState exCreateGood, createdRows exState exCreateGood).2,
        row.ingredientCost = unitCostOrZero exState row.ingredientId * row.quantity) ∧
      (∀ row ∈ (createdForm exState exCreateGood, createdRows exState exCreateGood).2,
        lookupIngredient exState row.ingredientId = none → row.ingredientCost = 0) ∧
      (∀ row ∈ fiRowsOf (updateFormulation exState 0 exUpdateGood).2 0,
        row.ingredientCost = unitCostOrZero exState row.ingredientId * row.quantity) ∧
      resultOk (createFormulation { exState with ingredients := [] } exCreateGood).1 =
        resultOk
          (createFormulation { exState with ingredients := [exIngCorn, exIngSoy] }
            exCreateGood).1 ∧
      resultOk (updateFormulation { exState with ingredients := [] } 0 exUpdateGood).1 =
        resultOk
          (updateFormulation { exState with ingredients := [exIngCorn, exIngSoy] } 0
            exUpdateGood).1) := by
  have hcg : validCreateInputB exCreateGood = true := by
    norm_num [validCreateInputB, exCreateGood, statusOkB, validEntryB, exEntryFull] <;> decide
  have hdg : ¬ 1/10 < mathAbs (sumPct exCreateGood.ingredients - 100) := by
    norm_num [mathAbs, sumPct, exCreateGood, exEntryFull]
  have hok : (createFormulation exState exCreateGood).1 =
      .ok (createdForm exState exCreateGood, createdRows exState exCreateGood) := by
    rw [createFormulation_ok exState hcg hdg]
  have hents : exUpdateGood.ingredients = some [exEntryFull] := rfl
  have hf : lookupFormulation exState 0 = some exFormDraft := rfl
  have hact : ¬ exFormDraft.status = "active" := by decide
  have hug : validUpdateInputB exUpdateGood = true := by
    norm_num [validUpdateInputB, exUpdateGood, validEntryB, exEntryFull]
  have hdg₂ : ¬ 1/10 < mathAbs (sumPct [exEntryFull] - 100) := by
    norm_num [mathAbs, sumPct, exEntryFull]
  have hok₂ : (updateFormulation exState 0 exUpdateGood).1 = .ok () := by
    rw [updateFormulation_ok_ents hug hf hact hents hdg₂]
  exact ⟨hok, hents, hok₂,
    claim7_cost_contribution exState exCreateGood
      (createdForm exState exCreateGood, createdRows exState exCreateGood)
      exState 0 exUpdateGood [exEntryFull] () [] [exIngCorn, exIngSoy] hok hents hok₂⟩

/-- C8: in a successful Update that supplies ingredient entries, every
inserted row's `costPercentage` divides by the payload's `totalCost` (or
`0` when the payload carries none — `totalCost?.toString() || '0'`), and
the inserted rows are unchanged if the stored formulation row's
`totalCost` is set to any other value first: the stored `totalCost` is
never read by the cost allocation. -/
theorem claim8_update_denominator
    (s : DBState) (fid : Nat) (u : UpdateInput) (ents : List IngEntry) (r : Unit) (q : ℚ)
    (hents : u.ingredients = some ents)
    (hok : (updateFormulation s fid u).1 = .ok r) :
    (∀ row ∈ fiRowsOf (updateFormulation s fid u).2 fid,
        row.costPercentage = jsMulQ (jsDivQ row.ingredientCost (u.totalCost.getD 0)) 100) ∧
    (u.totalCost = none →
      ∀ row ∈ fiRowsOf (updateFormulation s fid u).2 fid,
        row.costPercentage = jsMulQ (jsDivQ row.ingredientCost 0) 100) ∧
    fiRowsOf
        (updateFormulation (replaceForm s fid (fun r' => { r' with totalCost := q })) fid u).2
        fid =
      fiRowsOf (updateFormulation s fid u).2 fid := by
  obtain ⟨h₁, ⟨f, hf, h₃⟩, h₅, hst⟩ := updateFormulation_ok_ents_inv hents hok
  have hnd : ¬ 1/10 < mathAbs (sumPct ents - 100) := not_lt.mpr h₅
  have hrows : ∀ row ∈ fiRowsOf (updateFormulation s fid u).2 fid,
      row.costPercentage = jsMulQ (jsDivQ row.ingredientCost (u.totalCost.getD 0)) 100 := by
    intro row hrow
    rw [hst, fiRowsOf_updatedState] at hrow
    unfold updatedRows at hrow
    rcases mem_mapIdxFrom _ _ _ _ hrow with ⟨i, e, -, rfl⟩
    exact mkFIRow_costPercentage _ _ _ _ _
  refine ⟨hrows, fun hnone row hrow => ?_, ?_⟩
  · rw [hrows row hrow, hnone]
    rfl
  · have hf' : lookupFormulation (replaceForm s fid (fun r' => { r' with totalCost := q })) fid
        = some { f with totalCost := q } := by
      rw [lookupFormulation_replaceForm s fid fid (fun r' => { r' with totalCost := q })
        (fun r' => rfl), hf]
      simp only [Option.map_some', if_pos (lookupFormulation_id hf)]
    have hst' := congrArg Prod.snd (updateFormulation_ok_ents h₁ hf' h₃ hents hnd)
    rw [hst, hst', fiRowsOf_updatedState, fiRowsOf_updatedState, updatedRows_setTC]

/-- C8 witness: the metadata-free update (no `totalCost` in the payload)
at the concrete state, with the stored `totalCost` rewritten to 99
beforehand making no difference to the inserted rows. -/
theorem claim8_update_denominator_witness :
    exUpdateGood.ingredients = some [exEntryFull] ∧
    (updateFormulation exState 0 exUpdateGood).1 = .ok () ∧
    ((∀ row ∈ fiRowsOf (updateFormulation exState 0 exUpdateGood).2 0,
        row.costPercentage =
          jsMulQ (jsDivQ row.ingredientCost (exUpdateGood.totalCost.getD 0)) 100) ∧
      (exUpdateGood.totalCost = none →
        ∀ row ∈ fiRowsOf (updateFormulation exState 0 exUpdateGood).2 0,
          row.costPercentage = jsMulQ (jsDivQ row.ingredientCost 0) 100) ∧
      fiRowsOf
          (updateFormulation
            (replaceForm exState 0 (fun r' => { r' with totalCost := 99 })) 0 exUpdateGood).2
          0 =
        fiRowsOf (updateFormulation exState 0 exUpdateGood).2 0) := by
  have hents : exUpdateGood.ingredients = some [exEntryFull] := rfl
  have hf : lookupFormulation exState 0 = some exFormDraft := rfl
  have hact : ¬ exFormDraft.status = "active" := by decide
  have hug : validUpdateInputB exUpdateGood = true := by
    norm_num [validUpdateInputB, exUpdateGood, validEntryB, exEntryFull]
  have hdg : ¬ 1/10 < mathAbs (sumPct [exEntryFull] - 100) := by
    norm_num [mathAbs, sumPct, exEntryFull]
  have hok : (updateFormulation exState 0 exUpdateGood).1 = .ok () := by
    rw [updateFormulation_ok_ents hug hf hact hents hdg]
  exact ⟨hents, hok,
    claim8_update_denominator exState 0 exUpdateGood [exEntryFull] () 99 hents hok⟩

/-- C9: a successful Duplicate of an existing source formulation yields a
new formulation whose id differs from the source's, whose status is
`draft` whatever the source's status was, and whose inserted ingredient
rows carry — as a multiset — exactly the source rows'
`(ingredientId, quantity, percentage, ingredientRole, isEssential)`
tuples. -/
theorem claim9_duplicate_draft_copy
    (s : DBState) (fid : Nat) (nm : String) (f : FormulationRow)
    (pr : FormulationRow × List FIRow)
    (hwf : IdsBelowNext s)
    (hf : lookupFormulation s fid = some f)
    (hok : (duplicateFormulation s fid nm).1 = .ok pr) :
    pr.1.id ≠ f.id ∧ pr.1.status = "draft" ∧
    List.Perm (pr.2.map fiProj) ((fiRowsOf s fid).map fiProj) := by
  unfold duplicateFormulation at hok
  rw [getFormulationById_some hf] at hok
  have hok' : (createFormulation s
      (dupInput f ((sortDispAsc (fiRowsOf s fid)).map (annotateRow s)) nm)).1 = .ok pr := hok
  obtain ⟨-, -, hpr, -⟩ := createFormulation_ok_inv hok'
  have hlt : f.id < s.nextId := hwf f (lookupFormulation_mem hf)
  refine ⟨?_, ?_, ?_⟩
  · rw [hpr]
    exact (ne_of_lt hlt).symm
  · rw [hpr]
    rfl
  · rw [hpr]
    have h1 := createdRows_map_fiProj s
      (dupInput f ((sortDispAsc (fiRowsOf s fid)).map (annotateRow s)) nm)
    have h2 := (sortPctDesc_perm
      (dupInput f ((sortDispAsc (fiRowsOf s fid)).map (annotateRow s)) nm).ingredients).map
      entProj
    have h3 : ((dupInput f ((sortDispAsc (fiRowsOf s fid)).map (annotateRow s)) nm).ingredients
        |>.map entProj) = (sortDispAsc (fiRowsOf s fid)).map fiProj := by
      show ((((sortDispAsc (fiRowsOf s fid)).map (annotateRow s)).map _).map entProj) = _
      rw [List.map_map, List.map_map]
      rfl
    have h4 := (sortDispAsc_perm (fiRowsOf s fid)).map fiProj
    show ((createdRows s _).map fiProj).Perm _
    rw [h1]
    refine h2.trans ?_
    rw [h3]
    exact h4

/-- C9 witness: duplicating the active base formulation yields a draft
copy with id 1 whose row tuples are a permutation of the source's. -/
theorem claim9_duplicate_draft_copy_witness :
    IdsBelowNext exStateActive ∧
    lookupFormulation exStateActive 0 = some exFormActive ∧
    (duplicateFormulation exStateActive 0 "Copy").1 =
      .ok (createdForm exStateActive
             (dupInput exFormActive
               ((sortDispAsc (fiRowsOf exStateActive 0)).map (annotateRow exStateActive))
               "Copy"),
           createdRows exStateActive
             (dupInput exFormActive
               ((sortDispAsc (fiRowsOf exStateActive 0)).map (annotateRow exStateActive))
               "Copy")) ∧
    ((createdForm exStateActive
        (dupInput exFormActive
          ((sortDispAsc (fiRowsOf exStateActive 0)).map (annotateRow exStateActive))
          "Copy")).id ≠ exFormActive.id ∧
      (createdForm exStateActive
        (dupInput exFormActive
          ((sortDispAsc (fiRowsOf exStateActive 0)).map (annotateRow exStateActive))
          "Copy")).status = "draft" ∧
      List.Perm
        ((createdRows exStateActive
          (dupInput exFormActive
            ((sortDispAsc (fiRowsOf exStateActive 0)).map (annotateRow exStateActive))
            "Copy")).map fiProj)
        ((fiRowsOf exStateActive 0).map fiProj)) := by
  have hwf : IdsBelowNext exStateActive := by decide
  have hf : lookupFormulation exStateActive 0 = some exFormActive := rfl
  have hv : validCreateInputB (dupInput exFormActive
      ((sortDispAsc (fiRowsOf exStateActive 0)).map (annotateRow exStateActive))
      "Copy") = true := by
    norm_num [dupInput, validCreateInputB, statusOkB, validEntryB, fiRowsOf, sortDispAsc,
      insertDispAsc, annotateRow, lookupIngredient, List.find?, exStateActive, exState,
      exFormActive, exFormDraft, exFIRow, exIngCorn, exIngSoy] <;> decide
  have hd : ¬ 1/10 < mathAbs (sumPct (dupInput exFormActive
      ((sortDispAsc (fiRowsOf exStateActive 0)).map (annotateRow exStateActive))
      "Copy").ingredients - 100) := by
    norm_num [dupInput, mathAbs, sumPct, fiRowsOf, sortDispAsc, insertDispAsc, annotateRow,
      lookupIngredient, List.find?, exStateActive, exState, exFormActive, exFormDraft,
      exFIRow, exIngCorn, exIngSoy]
  have hok : (duplicateFormulation exStateActive 0 "Copy").1 =
      .ok (createdForm exStateActive
             (dupInput exFormActive
               ((sortDispAsc (fiRowsOf exStateActive 0)).map (annotateRow exStateActive))
               "Copy"),
           createdRows exStateActive
             (dupInput exFormActive
               ((sortDispAsc (fiRowsOf exStateActive 0)).map (annotateRow exStateActive))
               "Copy")) := by
    unfold duplicateFormulation
    rw [getFormulationById_some hf]
    exact congrArg Prod.fst (createFormulation_ok exStateActive hv hd)
  exact ⟨hwf, hf, hok,
    claim9_duplicate_draft_copy exStateActive 0 "Copy" exFormActive _ hwf hf hok⟩

/-- C10: for an existing id the Reader returns the formulation together
with its ingredient rows sorted by `displayOrder` ascending (a
permutation of exactly the formulation's stored rows), each annotated
with the referenced ingredient's name, category, unit cost and unit from
the left join; for a missing id it returns `NotFound`. The Reader is
read-only by construction: it takes the state and returns only a
result. -/
theorem claim10_reader
    (s : DBState) (fid fid' : Nat) (f : FormulationRow)
    (hf : lookupFormulation s fid = some f)
    (hnf : lookupFormulation s fid' = none) :
    getFormulationById s fid' = .error .notFound ∧
    getFormulationById s fid =
      .ok (f, (sortDispAsc (fiRowsOf s fid)).map (annotateRow s)) ∧
    (sortDispAsc (fiRowsOf s fid)).Pairwise (fun a b => a.displayOrder ≤ b.displayOrder) ∧
    List.Perm (sortDispAsc (fiRowsOf s fid)) (fiRowsOf s fid) ∧
    (∀ a ∈ (sortDispAsc (fiRowsOf s fid)).map (annotateRow s),
        a.ingredientName = (lookupIngredient s a.row.ingredientId).map (fun i => i.name) ∧
        a.ingredientCategory =
          (lookupIngredient s a.row.ingredientId).map (fun i => i.category) ∧
        a.ingredientCostPerUnit =
          (lookupIngredient s a.row.ingredientId).map (fun i => i.costPerUnit) ∧
        a.ingredientUnit = (lookupIngredient s a.row.ingredientId).map (fun i => i.unit)) := by
  refine ⟨?_, getFormulationById_some hf, sortDispAsc_pairwise _, sortDispAsc_perm _, ?_⟩
  · unfold getFormulationById
    rw [hnf]
  · intro a ha
    rcases List.mem_map.mp ha with ⟨r, -, rfl⟩
    exact ⟨rfl, rfl, rfl, rfl⟩

/-- C10 witness: reading the base formulation returns it with its single
annotated row; reading id 7 returns `NotFound`. -/
theorem claim10_reader_witness :
    lookupFormulation exState 0 = some exFormDraft ∧
    lookupFormulation exState 7 = none ∧
    (getFormulationById exState 7 = .error .notFound ∧
      getFormulationById exState 0 =
        .ok (exFormDraft, (sortDispAsc (fiRowsOf exState 0)).map (annotateRow exState)) ∧
      (sortDispAsc (fiRowsOf exState 0)).Pairwise
        (fun a b => a.displayOrder ≤ b.displayOrder) ∧
      List.Perm (sortDispAsc (fiRowsOf exState 0)) (fiRowsOf exState 0) ∧
      (∀ a ∈ (sortDispAsc (fiRowsOf exState 0)).map (annotateRow exState),
        a.ingredientName =
          (lookupIngredient exState a.row.ingredientId).map (fun i => i.name) ∧
        a.ingredientCategory =
          (lookupIngredient exState a.row.ingredientId).map (fun i => i.category) ∧
        a.ingredientCostPerUnit =
          (lookupIngredient exState a.row.ingredientId).map (fun i => i.costPerUnit) ∧
        a.ingredientUnit =
          (lookupIngredient exState a.row.ingredientId).map (fun i => i.unit))) := by
  have hf : lookupFormulation exState 0 = some exFormDraft := rfl
  have hnf : lookupFormulation exState 7 = none := rfl
  exact ⟨hf, hnf, claim10_reader exState 0 7 exFormDraft hf hnf⟩

end FeedForm
